import Mathlib

/- Verification of the DE20 configuration-driven record pipeline.

   Shallow embedding of the stage execution engine: the record model
   (`Value`, `Record`), the join engine (`join_datasets`), the
   data-quality rule engine (`check_null_values`, `check_duplicates`,
   `check_range`, `check_pattern`, `run_dq_checks`, `process_dq_checks`),
   the transformation engine (`apply_derived_column`, `apply_date_extract`,
   `apply_string_transform`, `apply_date_format`, `process_transformations`),
   the simulated router (`process_router`) and the stage orchestrator
   (`execute_component`, `controller_main`).

   Modelling conventions: Python floats are rationals (binary
   floating-point representation error is not modelled, and the special
   values inf/nan are outside the numeric domain); Python dicts keyed by
   scalars are insertion-ordered association lists or, where only lookup
   is ever used, plain functions; file-system and console side effects are
   dropped and configuration documents, already parsed, are passed as
   values (a missing/unreadable document is the `none` configuration);
   Python unicode digit classification is restricted to ASCII digits. -/

/-- Scalar values held in a record: the Python `None` marker, strings,
Python ints and Python floats (modelled as rationals). -/
inductive Value where
  | vnull : Value
  | vstr : String → Value
  | vint : Int → Value
  | vfloat : Rat → Value
deriving DecidableEq, Repr

/-- Python truthiness on the value domain (`if value:`). -/
def Value.truthy : Value → Bool
  | .vnull => false
  | .vstr s => s ≠ ""
  | .vint z => z ≠ 0
  | .vfloat q => q ≠ 0

/-- A record is a Python dict from column name to scalar value, modelled
as an insertion-ordered association list whose keys stay unique under
`Record.set` (dict assignment). -/
abbrev Record := List (String × Value)

/-- `row.get(col)`: first binding of the key, if any. -/
def Record.get? (r : Record) (k : String) : Option Value :=
  (r.find? (fun kv => kv.1 == k)).map (fun kv => kv.2)

/-- `row.get(col, default)`. -/
def Record.getD (r : Record) (k : String) (d : Value) : Value :=
  (r.get? k).getD d

/-- Dict assignment `row[k] = v`: replaces the value in place when the key
exists (Python dicts keep the original insertion position), else appends. -/
def Record.set (r : Record) (k : String) (v : Value) : Record :=
  match r with
  | [] => [(k, v)]
  | (k', v') :: rest =>
    if k' == k then (k', v) :: rest else (k', v') :: Record.set rest k v

/-- `k in row`. -/
def Record.hasKey (r : Record) (k : String) : Bool :=
  (r.find? (fun kv => kv.1 == k)).isSome

/-- Digits of a natural number, as characters with no leading zero. -/
def natDigits (n : Nat) : String :=
  (toString n)

/-- Two-decimal-digit rendering, left padded with a zero. -/
def twoDigits (n : Nat) : String :=
  if n < 10 then "0" ++ toString n else toString n

/- The core `Rat` field operations are `@[irreducible]`, which blocks
evaluating the embedding on concrete inputs inside proofs, so the
embedding computes with the following `mkRat`-based equivalents; each is
proved equal to the corresponding field operation below. -/

/-- Executable rational addition. -/
def ratAdd (a b : Rat) : Rat :=
  mkRat (a.num * b.den + b.num * a.den) (a.den * b.den)

/-- Executable rational subtraction. -/
def ratSub (a b : Rat) : Rat :=
  mkRat (a.num * b.den - b.num * a.den) (a.den * b.den)

/-- Executable rational multiplication. -/
def ratMul (a b : Rat) : Rat :=
  mkRat (a.num * b.num) (a.den * b.den)

/-- Executable rational inverse (`0⁻¹ = 0`). -/
def ratInv (a : Rat) : Rat :=
  if 0 ≤ a.num then mkRat (a.den : Int) a.num.natAbs
  else mkRat (-(a.den : Int)) a.num.natAbs

/-- Executable rational division (division by zero gives `0`). -/
def ratDiv (a b : Rat) : Rat :=
  ratMul a (ratInv b)

/-- Executable floor of a rational. -/
def ratFloor (a : Rat) : Int :=
  a.num.fdiv a.den

/-- Python `str.strip()` on a character list (structural, so that
evaluation does not rely on the well-founded recursion inside
`String.trim`). -/
def pyStripChars (cs : List Char) : List Char :=
  ((cs.dropWhile Char.isWhitespace).reverse.dropWhile Char.isWhitespace).reverse

/-- Decimal rendering of a Python float held as a rational. Floats that
flow through the pipeline are either parsed short decimals or results of
rounding to two places, so the rendering covers denominators dividing
100 exactly and truncates anything finer. -/
def floatRepr (q : Rat) : String :=
  if q.den = 1 then toString q.num ++ ".0"
  else
    let sgn := if q < 0 then "-" else ""
    let n := q.num.natAbs
    let d := q.den
    let whole := n / d
    let rem := n % d
    if (mkRat (q.num * 10) q.den).den = 1 then
      sgn ++ toString whole ++ "." ++ toString (rem * 10 / d)
    else
      sgn ++ toString whole ++ "." ++ twoDigits (rem * 100 / d)

/-- Python `str(value)` on the value domain. -/
def strOfValue : Value → String
  | .vnull => "None"
  | .vstr s => s
  | .vint z => toString z
  | .vfloat q => floatRepr q

/-- Value of an unsigned digit string. -/
def digitsToNat (cs : List Char) : Nat :=
  cs.foldl (fun a c => a * 10 + (c.toNat - 48)) 0

/-- Core of CPython `float(str)` on an already-trimmed character list:
optional sign, then either digits with an optional fractional part or a
bare fractional part, then an optional exponent; the whole input must be
consumed. (`inf`/`nan` and digit-grouping underscores are outside the
modelled domain.) -/
def pyFloatCore (cs : List Char) : Option Rat :=
  let (neg, cs1) : Bool × List Char :=
    match cs with
    | '+' :: rest => (false, rest)
    | '-' :: rest => (true, rest)
    | _ => (false, cs)
  let (ip, cs2) := cs1.span Char.isDigit
  let mant? : Option (Rat × List Char) :=
    match cs2 with
    | '.' :: cs3 =>
      let (fp, cs4) := cs3.span Char.isDigit
      if ip.isEmpty && fp.isEmpty then none
      else
        some (mkRat (digitsToNat ip * 10 ^ fp.length + digitsToNat fp : Nat) (10 ^ fp.length),
          cs4)
    | _ =>
      if ip.isEmpty then none else some (mkRat (digitsToNat ip : Nat) 1, cs2)
  match mant? with
  | none => none
  | some (m0, rest) =>
    let m := if neg then -m0 else m0
    match rest with
    | [] => some m
    | 'e' :: es => pyFloatExp m es
    | 'E' :: es => pyFloatExp m es
    | _ => none
where
  /-- Exponent suffix: optional sign, at least one digit, nothing after. -/
  pyFloatExp (m : Rat) (cs : List Char) : Option Rat :=
    let (esgn, cs1) : Bool × List Char :=
      match cs with
      | '+' :: rest => (false, rest)
      | '-' :: rest => (true, rest)
      | _ => (false, cs)
    let (ed, cs2) := cs1.span Char.isDigit
    if ed.isEmpty || !cs2.isEmpty then none
    else
      let e := digitsToNat ed
      some (if esgn then mkRat m.num (m.den * 10 ^ e) else mkRat (m.num * 10 ^ e) m.den)

/-- CPython `float(str)`: surrounding whitespace is stripped first. -/
def pyFloatOfString (s : String) : Option Rat :=
  pyFloatCore (pyStripChars s.toList)

/-- Python `float(value)` on the value domain; `none` models a raised
`ValueError`/`TypeError`. -/
def pyFloat? : Value → Option Rat
  | .vnull => none
  | .vstr s => pyFloatOfString s
  | .vint z => some (mkRat z 1)
  | .vfloat q => some q

/-- Python `round(x, 2)`: round half to even at two decimal places. -/
def round2 (q : Rat) : Rat :=
  let x := mkRat (q.num * 100) q.den
  let fl : Int := ratFloor x
  let fr : Rat := ratSub x (mkRat fl 1)
  let n : Int :=
    if fr < mkRat 1 2 then fl
    else if fr > mkRat 1 2 then fl + 1
    else if fl % 2 = 0 then fl else fl + 1
  mkRat n 100

/-- Structured form of the violation `issue` message strings. -/
inductive Issue where
  | nullOrEmpty : Issue
  | duplicateAt : Nat → Issue
  | belowMin : Rat → Rat → Issue
  | aboveMax : Rat → Rat → Issue
  | invalidNumeric : Issue
  | patternMismatch : Issue
deriving DecidableEq, Repr

/-- One rule violation: `{record_index, column, value, issue}` as built by
the `check_*` functions. -/
structure Violation where
  record_index : Nat
  column : String
  value : Value
  issue : Issue
deriving DecidableEq, Repr

/-- Python `str(tuple_of_strings)` (quote escaping inside the elements is
not modelled). -/
def tupleRepr (xs : List String) : String :=
  match xs with
  | [x] => "('" ++ x ++ "',)"
  | _ => "(" ++ String.intercalate ", " (xs.map (fun x => "'" ++ x ++ "'")) ++ ")"

/-- Body of the record loop of `check_null_values` for one indexed row. -/
def check_null_row (columns : List String) (p : Nat × Record) : List Violation :=
  columns.filterMap (fun col =>
    let value := p.2.getD col (.vstr "")
    if value = .vnull || (strOfValue value).trim == "" then
      some ⟨p.1, col, value, .nullOrEmpty⟩
    else none)

/-- `check_null_values(data, columns)`: a violation for every
record/column pair whose value is `None` or whose string form is blank
after trimming. -/
def check_null_values (data : List Record) (columns : List String) : List Violation :=
  data.enum.flatMap (check_null_row columns)

/-- The composite key of `check_duplicates`:
`tuple(str(row.get(col, '')) for col in columns)`. -/
def compositeKey (row : Record) (columns : List String) : List String :=
  columns.map (fun col => strOfValue (row.getD col (.vstr "")))

/-- Loop of `check_duplicates`: `seen` maps a key to the index of its
first occurrence (a Python dict used only through membership and lookup,
so modelled as a function), `i` is the index of the first row of `rows`. -/
def check_duplicates_go (columns : List String) (seen : List String → Option Nat)
    (i : Nat) : List Record → List Violation
  | [] => []
  | row :: rows =>
    let key := compositeKey row columns
    match seen key with
    | some j =>
      ⟨i, String.intercalate ", " columns, .vstr (tupleRepr key), .duplicateAt j⟩ ::
        check_duplicates_go columns seen (i + 1) rows
    | none =>
      check_duplicates_go columns (fun k => if k = key then some i else seen k) (i + 1) rows

/-- `check_duplicates(data, columns)`. -/
def check_duplicates (data : List Record) (columns : List String) : List Violation :=
  check_duplicates_go columns (fun _ => none) 0 data

/-- Body of the record loop of `check_range` for one indexed row: falsy
values are skipped, a truthy value that fails `float()` is one "Invalid
numeric value" violation, and the below-min and above-max checks run
independently. -/
def check_range_row (column : String) (min_value max_value : Option Rat)
    (p : Nat × Record) : List Violation :=
  let value := p.2.getD column (.vstr "")
  if value.truthy then
    match pyFloat? value with
    | some q =>
      (match min_value with
       | some m => if q < m then [⟨p.1, column, value, .belowMin q m⟩] else []
       | none => []) ++
      (match max_value with
       | some m => if q > m then [⟨p.1, column, value, .aboveMax q m⟩] else []
       | none => [])
    | none => [⟨p.1, column, value, .invalidNumeric⟩]
  else []

/-- `check_range(data, column, min_value, max_value)` record loop. -/
def check_range (data : List Record) (column : String)
    (min_value max_value : Option Rat) : List Violation :=
  data.enum.flatMap (check_range_row column min_value max_value)

/-- `check_pattern(data, column, pattern)`: the compiled regex is modelled
by its `.match` function (match-at-start semantics baked in); empty string
forms are exempt. -/
def check_pattern_row (column : String) (regexMatch : String → Bool)
    (p : Nat × Record) : List Violation :=
  let value := strOfValue (p.2.getD column (.vstr ""))
  if value ≠ "" && !regexMatch value then [⟨p.1, column, .vstr value, .patternMismatch⟩]
  else []

/-- `check_pattern(data, column, pattern)` record loop. -/
def check_pattern (data : List Record) (column : String)
    (regexMatch : String → Bool) : List Violation :=
  data.enum.flatMap (check_pattern_row column regexMatch)

/-- One declarative DQ rule. Absent YAML keys take the defaults used at
the call sites (`action` defaults to `warn`). -/
structure Rule where
  rule_name : String
  action : String := "warn"
  columns : List String := []
  column : String := ""
  min_value : Option Rat := none
  max_value : Option Rat := none
  pattern : String → Bool := fun _ => true

/-- Per-rule outcome row of `run_dq_checks`. -/
structure RuleResult where
  rule_name : String
  action : String
  failure_count : Nat
  status : String
deriving DecidableEq, Repr

/-- A violation tagged with its originating rule and action, as appended
to `results['failed_records']`. -/
structure Hit where
  violation : Violation
  rule_name : String
  action : String
deriving DecidableEq, Repr

/-- The accumulator/result dict of `run_dq_checks`. -/
structure DqResults where
  total_records : Nat
  rules_executed : Nat := 0
  total_failures : Nat := 0
  total_warnings : Nat := 0
  rule_results : List RuleResult := []
  failed_records : List Hit := []
deriving DecidableEq, Repr

/-- The violations one rule produces on a batch: the `rule_name` dispatch
of the rule loop in `run_dq_checks` (an unmatched name leaves `failures`
empty). -/
def rule_failures (data : List Record) (rule : Rule) : List Violation :=
  if rule.rule_name == "null_check" then check_null_values data rule.columns
  else if rule.rule_name == "duplicate_check" then check_duplicates data rule.columns
  else if rule.rule_name == "range_check" then
    check_range data rule.column rule.min_value rule.max_value
  else if rule.rule_name == "format_check" then check_pattern data rule.column rule.pattern
  else []

/-- Body of the rule loop in `run_dq_checks` for one rule. -/
def run_dq_rule (data : List Record) (results : DqResults) (rule : Rule) : DqResults :=
  let failures : List Violation := rule_failures data rule
  let rule_result : RuleResult :=
    ⟨rule.rule_name, rule.action, failures.length,
      if failures.length = 0 then "PASS" else if rule.action == "fail" then "FAIL" else "WARN"⟩
  { results with
    rule_results := results.rule_results ++ [rule_result]
    rules_executed := results.rules_executed + 1
    total_failures :=
      results.total_failures + (if rule.action == "fail" then failures.length else 0)
    total_warnings :=
      results.total_warnings + (if rule.action == "fail" then 0 else failures.length)
    failed_records :=
      results.failed_records ++ failures.map (fun f => ⟨f, rule.rule_name, rule.action⟩) }

/-- `run_dq_checks(data, config)` with the parsed rule list of the
configuration document passed in directly. -/
def run_dq_checks (data : List Record) (dq_rules : List Rule) : DqResults :=
  dq_rules.foldl (run_dq_rule data) ⟨data.length, 0, 0, 0, [], []⟩

/-- Stage status strings. -/
inductive Status where
  | SUCCESS : Status
  | FAILED : Status
  | SKIPPED : Status
deriving DecidableEq, Repr

/-- The result-envelope dict every stage handler returns. File-path fields
(`output_path`, `headers`) are I/O plumbing and are not modelled; absent
keys are `none`. -/
structure Envelope where
  data : List Record := []
  record_count : Nat := 0
  status : Status := .SUCCESS
  error : Option String := none
  passed : Option Bool := none
  dq_results : Option DqResults := none
  destinations_routed : Option (List String) := none
deriving DecidableEq, Repr

/-- The SKIPPED envelope `process_dq_checks` returns when no input was
provided. -/
def dq_skip_no_input : Envelope :=
  { data := [], record_count := 0, status := .SKIPPED,
    error := some "No input data provided", passed := some false }

/-- The SKIPPED envelope `process_dq_checks` returns on an empty batch. -/
def dq_skip_empty : Envelope :=
  { data := [], record_count := 0, status := .SKIPPED,
    error := some "Empty dataset", passed := some false }

/-- `process_dq_checks(config_path, input_data)`: the configuration is
passed already parsed, `none` standing for a document whose loading raises
`ConfigError` (caught and turned into a FAILED envelope). -/
def process_dq_checks (config : Option (List Rule)) (input_data : Option Envelope) : Envelope :=
  match input_data with
  | none => dq_skip_no_input
  | some inp =>
    let data := inp.data
    if data.isEmpty then dq_skip_empty
    else
      match config with
      | none =>
        { data := [], record_count := 0, status := .FAILED,
          passed := some false, error := some "Config error" }
      | some rules =>
        let dq := run_dq_checks data rules
        { data := data, record_count := data.length, status := .SUCCESS,
          passed := some (dq.total_failures = 0), dq_results := some dq }

/-- The inline numeric-looking test of `apply_derived_column`:
`v and str(v).replace('.', '').replace('-', '').isdigit()`. -/
def looks_numeric (v : Value) : Bool :=
  v.truthy &&
    (let cs := (strOfValue v).toList.filter (fun c => !(c == '.' || c == '-'))
     !cs.isEmpty && cs.all Char.isDigit)

/-- The `local_vars` dict comprehension of `apply_derived_column`:
each field is bound to `float(v)` when it looks numeric and to `0`
otherwise; `none` models `float()` raising inside the comprehension. -/
def bind_local_vars : Record → Option (List (String × Rat))
  | [] => some []
  | kv :: rest =>
    match (if looks_numeric kv.2 then pyFloat? kv.2 else some 0), bind_local_vars rest with
    | some q, some l => some ((kv.1, q) :: l)
    | _, _ => none

/-- Lookup in the bound-variable dict. -/
def mkEnv (l : List (String × Rat)) : String → Option Rat :=
  fun k => (l.find? (fun kv => kv.1 == k)).map (fun kv => kv.2)

/-- The restricted arithmetic expression of a `derived_column` spec
(the parsed form of the expression string handed to `eval` with empty
builtins: identifiers, literals and `+ - * /`). -/
inductive Expr where
  | lit : Rat → Expr
  | var : String → Expr
  | add : Expr → Expr → Expr
  | sub : Expr → Expr → Expr
  | mul : Expr → Expr → Expr
  | div : Expr → Expr → Expr
deriving DecidableEq, Repr

/-- Evaluation of a derived-column expression over the bound variables;
`none` models a raised `NameError` (unbound identifier) or
`ZeroDivisionError`. -/
def evalExpr (env : String → Option Rat) : Expr → Option Rat
  | .lit q => some q
  | .var s => env s
  | .add a b =>
    match evalExpr env a, evalExpr env b with
    | some x, some y => some (ratAdd x y)
    | _, _ => none
  | .sub a b =>
    match evalExpr env a, evalExpr env b with
    | some x, some y => some (ratSub x y)
    | _, _ => none
  | .mul a b =>
    match evalExpr env a, evalExpr env b with
    | some x, some y => some (ratMul x y)
    | _, _ => none
  | .div a b =>
    match evalExpr env a, evalExpr env b with
    | some x, some y => if y = 0 then none else some (ratDiv x y)
    | _, _ => none

/-- `apply_derived_column(data, expression, target_col)`: any exception in
a record's binding or evaluation writes the literal `0` (a Python int);
a successful evaluation writes `round(result, 2)` (kept as a float; the
all-integer corner where Python would keep an int is collapsed into the
rational). -/
def apply_derived_column (data : List Record) (expression : Expr) (target_col : String) :
    List Record :=
  data.map (fun row =>
    match bind_local_vars row with
    | none => row.set target_col (.vint 0)
    | some l =>
      match evalExpr (mkEnv l) expression with
      | none => row.set target_col (.vint 0)
      | some q => row.set target_col (.vfloat (round2 q)))

/-- `apply_date_format(data, source_col, target_col, date_format)`: a
pass-through copy of truthy source values; the format parameter is unused
in the source. -/
def apply_date_format (data : List Record) (source_col target_col : String) : List Record :=
  data.map (fun row =>
    let value := row.getD source_col (.vstr "")
    if value.truthy then row.set target_col value else row)

/-- `apply_string_transform(data, source_col, target_col, operation)`;
case mapping is modelled on ASCII. An unrecognized operation writes
nothing. -/
def apply_string_transform (data : List Record) (source_col target_col operation : String) :
    List Record :=
  data.map (fun row =>
    let value := strOfValue (row.getD source_col (.vstr ""))
    if operation == "uppercase" then row.set target_col (.vstr value.toUpper)
    else if operation == "lowercase" then row.set target_col (.vstr value.toLower)
    else if operation == "trim" then
      row.set target_col (.vstr (String.mk (pyStripChars value.toList)))
    else row)

/-- Gregorian leap-year test used by the datetime validity check. -/
def isLeap (y : Nat) : Bool :=
  y % 4 = 0 && (y % 100 ≠ 0 || y % 400 = 0)

/-- Days in a month, as validated by the `datetime` constructor. -/
def daysInMonth (y m : Nat) : Nat :=
  if m = 2 then (if isLeap y then 29 else 28)
  else if m = 4 || m = 6 || m = 9 || m = 11 then 30
  else 31

/-- One expected literal character of the date pattern. -/
def expectChar (c : Char) : List Char → Option (List Char)
  | x :: rest => if x == c then some rest else none
  | [] => none

/-- A 1-2 digit field of `strptime`: the two-digit reading is taken when
it is in range, else the one-digit reading, mirroring the ordered regex
alternations CPython compiles for `%m/%d/%H/%M/%S`. -/
def parseNum2 (lo hi : Nat) : List Char → Option (Nat × List Char)
  | a :: b :: rest =>
    if a.isDigit && b.isDigit then
      let v := (a.toNat - 48) * 10 + (b.toNat - 48)
      if lo ≤ v ∧ v ≤ hi then some (v, rest)
      else if lo ≤ a.toNat - 48 ∧ a.toNat - 48 ≤ hi then some (a.toNat - 48, b :: rest)
      else none
    else if a.isDigit then
      let v := a.toNat - 48
      if lo ≤ v ∧ v ≤ hi then some (v, b :: rest) else none
    else none
  | [a] =>
    if a.isDigit then
      let v := a.toNat - 48
      if lo ≤ v ∧ v ≤ hi then some (v, []) else none
    else none
  | [] => none

/-- The exactly-four-digit `%Y` field of `strptime`. -/
def parseYear4 : List Char → Option (Nat × List Char)
  | a :: b :: c :: d :: rest =>
    if a.isDigit && b.isDigit && c.isDigit && d.isDigit then
      some (digitsToNat [a, b, c, d], rest)
    else none
  | _ => none

/-- `datetime.strptime(s, '%Y-%m-%d %H:%M:%S')` followed by the
`datetime` constructor's validity checks (year ≥ 1, day within the month,
seconds ≤ 59); the whole string must be consumed. -/
def parse_datetime19 (s : String) : Option (Nat × Nat × Nat × Nat × Nat × Nat) := do
  let cs := s.toList
  let (y, cs) ← parseYear4 cs
  let cs ← expectChar '-' cs
  let (mo, cs) ← parseNum2 1 12 cs
  let cs ← expectChar '-' cs
  let (d, cs) ← parseNum2 1 31 cs
  let cs ← expectChar ' ' cs
  let (h, cs) ← parseNum2 0 23 cs
  let cs ← expectChar ':' cs
  let (mi, cs) ← parseNum2 0 59 cs
  let cs ← expectChar ':' cs
  let (sec, cs) ← parseNum2 0 59 cs
  if cs.isEmpty ∧ 1 ≤ y ∧ d ≤ daysInMonth y mo then
    some (y, mo, d, h, mi, sec)
  else none

/-- `apply_date_extract(data, source_col, target_col, extract_part)`:
parses the first 19 characters of a truthy source value; a parse failure
writes `''`; a falsy source value or an unrecognized extract part writes
nothing. -/
def apply_date_extract (data : List Record) (source_col target_col extract_part : String) :
    List Record :=
  data.map (fun row =>
    let value := row.getD source_col (.vstr "")
    if value.truthy then
      match parse_datetime19 ((strOfValue value).take 19) with
      | some (y, mo, d, _, _, _) =>
        if extract_part == "year" then row.set target_col (.vint (y : Int))
        else if extract_part == "month" then row.set target_col (.vint (mo : Int))
        else if extract_part == "day" then row.set target_col (.vint (d : Int))
        else row
      | none => row.set target_col (.vstr "")
    else row)

/-- One parsed transformation spec. An entry whose `type` string matches
no branch of `run_transformations` leaves the batch unchanged and is not
represented. -/
inductive TransformSpec where
  | date_format : String → String → TransformSpec
  | derived_column : Expr → String → TransformSpec
  | string_transform : String → String → String → TransformSpec
  | date_extract : String → String → String → TransformSpec

/-- The spec loop of `run_transformations(data, config)`. -/
def run_transformations (data : List Record) (specs : List TransformSpec) : List Record :=
  specs.foldl (fun d spec =>
    match spec with
    | .date_format s t => apply_date_format d s t
    | .derived_column e t => apply_derived_column d e t
    | .string_transform s t op => apply_string_transform d s t op
    | .date_extract s t part => apply_date_extract d s t part) data

/-- SKIPPED envelope of `process_transformations` for missing input. -/
def transform_skip_no_input : Envelope :=
  { data := [], record_count := 0, status := .SKIPPED,
    error := some "No input data provided" }

/-- SKIPPED envelope of `process_transformations` for an empty batch. -/
def transform_skip_empty : Envelope :=
  { data := [], record_count := 0, status := .SKIPPED, error := some "Empty dataset" }

/-- `process_transformations(config_path, input_data)`. -/
def process_transformations (config : Option (List TransformSpec))
    (input_data : Option Envelope) : Envelope :=
  match input_data with
  | none => transform_skip_no_input
  | some inp =>
    if inp.data.isEmpty then transform_skip_empty
    else
      match config with
      | none =>
        { data := [], record_count := 0, status := .FAILED, error := some "Config error" }
      | some specs =>
        let td := run_transformations inp.data specs
        { data := td, record_count := td.length, status := .SUCCESS }

/-- One routing destination (`dtype` embeds the `type` key). -/
structure Destination where
  name : String
  dtype : String := ""
  enabled : Bool := true
deriving DecidableEq, Repr

/-- `route_to_destination(data, destination, output_dir)`: simulation
only; returns the destination name, or `None` when disabled. -/
def route_to_destination (dest : Destination) : Option String :=
  if !dest.enabled then none else some dest.name

/-- The destination loop of `process_router`: results are appended only
when truthy (a disabled destination returns `None`; an empty name string
is also falsy). -/
def router_loop (dests : List Destination) : List String :=
  dests.foldl (fun acc d =>
    match route_to_destination d with
    | some n => if n = "" then acc else acc ++ [n]
    | none => acc) []

/-- SKIPPED envelope of `process_router` for missing input. -/
def router_skip_no_input : Envelope :=
  { data := [], record_count := 0, status := .SKIPPED,
    error := some "No input data provided", destinations_routed := some [] }

/-- SKIPPED envelope of `process_router` for an empty batch. -/
def router_skip_empty : Envelope :=
  { data := [], record_count := 0, status := .SKIPPED,
    error := some "Empty dataset", destinations_routed := some [] }

/-- `process_router(config_path, input_data)`: the input checks run
before the configuration is loaded, as in the source. -/
def process_router (config : Option (List Destination)) (input_data : Option Envelope) :
    Envelope :=
  match input_data with
  | none => router_skip_no_input
  | some inp =>
    if inp.data.isEmpty then router_skip_empty
    else
      match config with
      | none =>
        { data := [], record_count := 0, status := .FAILED,
          error := some "Config error", destinations_routed := some [] }
      | some dests =>
        let routed := router_loop dests
        { data := inp.data, record_count := inp.data.length, status := .SUCCESS,
          destinations_routed := some routed }

/-- The join-key value of a row: Python `row.get(join_key)` gives `None`
both for an absent key and for a stored null, so both collapse to
`vnull`. -/
def joinKeyOf (row : Record) (join_key : String) : Value :=
  row.getD join_key .vnull

/-- The `child_lookup` dict of `join_datasets`, grouping child rows by
join-key value in input order (a dict used only through lookup, so
modelled as a function with `[]` default). -/
def child_lookup (child_data : List Record) (join_key : String) : Value → List Record :=
  child_data.foldl
    (fun m row => fun q => if q = joinKeyOf row join_key then m q ++ [row] else m q)
    (fun _ => [])

/-- One merged row of `join_datasets`: all parent columns, then the
child's non-key columns, a child column colliding with a parent column
being renamed with the `order_` prefix. -/
def merge_rows (join_key : String) (parent_row child_row : Record) : Record :=
  child_row.foldl
    (fun merged kv =>
      if kv.1 == join_key then merged
      else merged.set (if parent_row.hasKey kv.1 then "order_" ++ kv.1 else kv.1) kv.2)
    parent_row

/-- `join_datasets(parent_data, child_data, join_key, join_type)`; the
raised-and-rewrapped `IngestionError` on an empty parent is the error
branch. -/
def join_datasets (parent_data child_data : List Record) (join_key join_type : String) :
    Except String (List Record) :=
  if parent_data.isEmpty then
    .error "Join operation failed: Parent dataset is empty"
  else
    let lookup := child_lookup child_data join_key
    .ok (parent_data.flatMap (fun parent_row =>
      let child_rows := lookup (joinKeyOf parent_row join_key)
      if !child_rows.isEmpty then
        child_rows.map (fun child_row => merge_rows join_key parent_row child_row)
      else if join_type == "left" then [parent_row]
      else []))

/-- What a triggered handler does with its input: return a result dict
(possibly `None`, as the unknown-component passthrough of `None` input
does) or raise an exception. -/
inductive HandlerRes where
  | ok : Option Envelope → HandlerRes
  | exn : String → HandlerRes

/-- A stage handler as seen by the orchestrator. The `component_type →
handler` dict of `execute_component` is abstracted into each component
carrying its behavior; an unknown component type is the passthrough
handler `fun input => .ok input`. -/
def Handler := Option Envelope → HandlerRes

/-- One entry of the controller's `results` dict. -/
inductive StageEntry where
  | res : Option Envelope → StageEntry
  | failedEntry : String → StageEntry
deriving DecidableEq

/-- Generic Python dict assignment on a string-keyed association list. -/
def dictSet {α : Type} (l : List (String × α)) (k : String) (v : α) : List (String × α) :=
  match l with
  | [] => [(k, v)]
  | (k', v') :: rest =>
    if k' == k then (k', v) :: rest else (k', v') :: dictSet rest k v

/-- `execute_component(component_type, config_file_path, input_data,
logger)`: a handler exception or a returned FAILED envelope becomes a
raised `PipelineError` (the error branch); anything else is returned. -/
def execute_component (component_type : String) (h : Handler) (input_data : Option Envelope) :
    Except String (Option Envelope) :=
  match h input_data with
  | .exn msg => .error (component_type ++ " failed: " ++ msg)
  | .ok none => .ok none
  | .ok (some e) =>
    if e.status = .FAILED then
      .error (component_type ++ " failed: " ++ (e.error.getD "Unknown error"))
    else .ok (some e)

/-- One pipeline component: its declared type string and its handler. -/
structure Component where
  component_type : String
  handler : Handler

/-- Result of the component loop of `controller.main`: the `results`
dict, the loop flags, the final `pipeline_data`, and (as instrumentation
of the operational model) the zero-based indices of the components whose
loop body actually ran. -/
structure LoopOut where
  results : List (String × StageEntry)
  all_success : Bool
  failed_component : Option String
  final_data : Option Envelope
  trace : List Nat

/-- The component loop of `controller.main`: each component receives the
prior result as input; a `PipelineError` records a FAILED entry, clears
`all_success`, records the failing component and breaks. -/
def controller_loop (comps : List Component) (pipeline_data : Option Envelope)
    (results : List (String × StageEntry)) (trace : List Nat) (idx : Nat) : LoopOut :=
  match comps with
  | [] => ⟨results, true, none, pipeline_data, trace⟩
  | c :: rest =>
    let trace' := trace ++ [idx]
    match execute_component c.component_type c.handler pipeline_data with
    | .error msg =>
      ⟨dictSet results c.component_type (.failedEntry msg), false, some c.component_type,
        pipeline_data, trace'⟩
    | .ok result =>
      controller_loop rest result (dictSet results c.component_type (.res result)) trace'
        (idx + 1)

/-- Status strings as printed. -/
def Status.str : Status → String
  | .SUCCESS => "SUCCESS"
  | .FAILED => "FAILED"
  | .SKIPPED => "SKIPPED"

/-- The per-component line of the final summary: `None` results are
skipped; a DQ-CHECKER entry whose envelope has `passed == False` is
reported as completed with warnings. -/
def summary_status (comp_type : String) (entry : StageEntry) : Option String :=
  match entry with
  | .res none => none
  | .res (some e) =>
    some (if comp_type == "DQ-CHECKER" && e.passed == some false then
            "COMPLETED WITH WARNINGS"
          else e.status.str)
  | .failedEntry _ => some "FAILED"

/-- The dict `controller.main` returns, together with the printed
summary and the execution trace of the loop. -/
structure MainResult where
  results : List (String × StageEntry)
  status : Status
  failed_component : Option String := none
  error : Option String := none
  summary : List (String × String) := []
  trace : List Nat := []

/-- `controller.main(datapipeline_config_path)` with the parsed component
list passed in directly (an empty list raises the `ConfigError` the outer
handler turns into a FAILED result; a missing/invalid top-level document
is the same plumbing and is not separately modelled). -/
def controller_main (components : List Component) : MainResult :=
  if components.isEmpty then
    ⟨[], .FAILED, none, some "No components defined in execution_pipeline", [], []⟩
  else
    let lo := controller_loop components none [] [] 0
    ⟨lo.results, if lo.all_success then .SUCCESS else .FAILED, lo.failed_component, none,
      lo.results.filterMap (fun p => (summary_status p.1 p.2).map (fun s => (p.1, s))),
      lo.trace⟩

/-- `trigger_dq_check_handler` as a component handler. -/
def dq_handler (config : Option (List Rule)) : Handler :=
  fun input => .ok (some (process_dq_checks config input))

/-- `trigger_transformations_handler` as a component handler. -/
def transform_handler (config : Option (List TransformSpec)) : Handler :=
  fun input => .ok (some (process_transformations config input))

/-- `trigger_router_handler` as a component handler. -/
def router_handler (config : Option (List Destination)) : Handler :=
  fun input => .ok (some (process_router config input))

/-- `trigger_ingestion_handler` as a component handler: it ignores its
input and produces the envelope determined by its configuration and
source files, abstracted here as the envelope itself. -/
def ingestion_handler (result : Envelope) : Handler :=
  fun _ => .ok (some result)

/-- The composite key of record `i` of the batch, as the duplicate rule
sees it. -/
def keyAt (data : List Record) (columns : List String) (i : Nat) : List String :=
  compositeKey (data[i]?.getD []) columns

/-- Transcription of the spec sentence for `duplicate_check` at one
index: the first occurrence of a key is never a violation; every
subsequent occurrence is one violation referencing the first
occurrence's index (the least earlier index with the same key). -/
def dupItem (data : List Record) (columns : List String) (i : Nat) : Option Violation :=
  match (List.range i).find? (fun j => keyAt data columns j == keyAt data columns i) with
  | some j =>
    some ⟨i, String.intercalate ", " columns, .vstr (tupleRepr (keyAt data columns i)),
      .duplicateAt j⟩
  | none => none

/-- The spec-level description of `duplicate_check` over a whole batch,
to be compared with `check_duplicates`. -/
def dup_spec (data : List Record) (columns : List String) : List Violation :=
  (List.range data.length).filterMap (dupItem data columns)

/-- The child records matching one parent record's join-key value. -/
def matching_children (child_data : List Record) (join_key : String) (p : Record) :
    List Record :=
  child_data.filter (fun c => joinKeyOf c join_key == joinKeyOf p join_key)

/-- The spec-level per-parent emission of the join: one merged record per
matching child; with no match, the unmodified parent under a left join
and nothing under an inner join. To be compared with `join_datasets`. -/
def join_block (child_data : List Record) (join_key join_type : String) (p : Record) :
    List Record :=
  let ms := matching_children child_data join_key p
  if ms.isEmpty then (if join_type == "left" then [p] else [])
  else ms.map (merge_rows join_key p)

/-- The claim's reading of "looks numeric" for a derived column: the
string form parses fully as a possibly-signed decimal (sign, digits,
optional fractional part; nothing else). -/
def parse_signed_decimal (s : String) : Option Rat :=
  let cs := s.toList
  let (sgn, cs1) : Bool × List Char :=
    match cs with
    | '+' :: rest => (false, rest)
    | '-' :: rest => (true, rest)
    | _ => (false, cs)
  let (ip, cs2) := cs1.span Char.isDigit
  match cs2 with
  | [] =>
    if ip.isEmpty then none
    else some (if sgn then -mkRat (digitsToNat ip) 1 else mkRat (digitsToNat ip) 1)
  | '.' :: cs3 =>
    let (fp, cs4) := cs3.span Char.isDigit
    if ip.isEmpty || fp.isEmpty || !cs4.isEmpty then none
    else
      let m := mkRat (digitsToNat ip * 10 ^ fp.length + digitsToNat fp : Nat) (10 ^ fp.length)
      some (if sgn then -m else m)
  | _ => none

/-- The transformation the claim describes for `derived_column`: every
field whose value parses as a possibly-signed decimal is bound to that
number, every other field is bound to zero, and an evaluation error
yields `0`. To be compared with `apply_derived_column`. -/
def derived_column_claim (data : List Record) (expression : Expr) (target_col : String) :
    List Record :=
  data.map (fun row =>
    let env := mkEnv (row.map (fun kv =>
      (kv.1, (parse_signed_decimal (strOfValue kv.2)).getD 0)))
    match evalExpr env expression with
    | none => row.set target_col (.vint 0)
    | some q => row.set target_col (.vfloat (round2 q)))

/-- The variable binding `apply_derived_column` uses on a record with no
failing `float()` call, as a single lookup function. -/
def code_env (row : Record) : String → Option Rat :=
  mkEnv (row.map (fun kv =>
    (kv.1, if looks_numeric kv.2 then (pyFloat? kv.2).getD 0 else 0)))

/-- Decidable equality of join results, for concrete evaluations. -/
instance : DecidableEq (Except String (List Record)) := fun a b =>
  match a, b with
  | .ok x, .ok y =>
    if h : x = y then .isTrue (by rw [h]) else .isFalse (by simp [h])
  | .error x, .error y =>
    if h : x = y then .isTrue (by rw [h]) else .isFalse (by simp [h])
  | .ok _, .error _ => .isFalse (by simp)
  | .error _, .ok _ => .isFalse (by simp)

/- ===== Helper lemmas about the per-row checker loops ===== -/

/-- A violation of an enum-driven checker loop comes from the row at its
own `record_index`. -/
theorem mem_checker_flatMap {g : Nat × Record → List Violation}
    (hg : ∀ p v, v ∈ g p → v.record_index = p.1)
    {data : List Record} {v : Violation} (hv : v ∈ data.enum.flatMap g) :
    ∃ r, data[v.record_index]? = some r ∧ v ∈ g (v.record_index, r) := by
  rcases List.mem_flatMap.mp hv with ⟨p, hp, hvp⟩
  obtain ⟨i, r⟩ := p
  have hidx := hg _ _ hvp
  have hmem : (i, r) ∈ List.enumFrom 0 data := hp
  obtain ⟨-, hlt, heq⟩ := List.mem_enumFrom hmem
  refine ⟨r, ?_, ?_⟩
  · rw [hidx]
    rw [List.getElem?_eq_getElem (by omega : i < data.length)]
    simp [heq]
  · rw [hidx]; exact hvp

/-- Membership facts about one row of `check_range`: a violation carries
the row's index and only a truthy value produces one. -/
theorem check_range_row_mem {col : String} {minv maxv : Option Rat}
    {p : Nat × Record} {v : Violation}
    (h : v ∈ check_range_row col minv maxv p) :
    v.record_index = p.1 ∧ (p.2.getD col (.vstr "")).truthy = true := by
  unfold check_range_row at h
  rcases ht : (p.2.getD col (.vstr "")).truthy with _ | _
  · simp [ht] at h
  · refine ⟨?_, rfl⟩
    simp only [ht, if_true] at h
    rcases hpf : pyFloat? (p.2.getD col (.vstr "")) with _ | q
    · simp [hpf] at h
      simp [h]
    · rw [hpf] at h
      rcases List.mem_append.mp h with h1 | h1 <;>
        rcases minv with _ | m <;> rcases maxv with _ | m <;>
          simp at h1 <;> (obtain ⟨-, h2⟩ := h1; simp [h2])

/-- Index projection form of `check_range_row_mem`. -/
theorem check_range_row_index (col : String) (minv maxv : Option Rat) :
    ∀ p v, v ∈ check_range_row col minv maxv p → v.record_index = p.1 :=
  fun _ _ h => (check_range_row_mem h).1

/-- C10: `check_range` never emits a violation for a record whose value
in the checked column is falsy — `None`, the empty string, or the number
`0`/`0.0` — whatever the configured bounds; in particular a numeric zero
is silently skipped even when the minimum is positive. -/
theorem C10_check_range_skips_falsy (data : List Record) (column : String)
    (min_value max_value : Option Rat) (i : Nat) (r : Record)
    (hr : data[i]? = some r)
    (hfalsy : r.getD column (.vstr "") = .vnull ∨ r.getD column (.vstr "") = .vstr "" ∨
      r.getD column (.vstr "") = .vint 0 ∨ r.getD column (.vstr "") = .vfloat 0) :
    ∀ v ∈ check_range data column min_value max_value, v.record_index ≠ i := by
  intro v hv hvi
  obtain ⟨r', hr', hmem⟩ :=
    mem_checker_flatMap (check_range_row_index column min_value max_value) hv
  rw [hvi] at hr'
  rw [hr] at hr'
  obtain rfl : r = r' := by injection hr'
  have ht := (check_range_row_mem hmem).2
  rcases hfalsy with hf | hf | hf | hf <;> rw [hf] at ht <;> simp [Value.truthy] at ht

/-- Witness for C10 at a record carrying a numeric zero (as produced by a
derived-column transformation) with a positive minimum bound. -/
theorem C10_check_range_skips_falsy_witness :
    (([[("v", Value.vfloat 0)]] : List Record)[0]? = some [("v", Value.vfloat 0)]) ∧
      ∀ v ∈ check_range [[("v", Value.vfloat 0)]] "v" (some 1) none, v.record_index ≠ 0 :=
  ⟨by decide,
    C10_check_range_skips_falsy [[("v", Value.vfloat 0)]] "v" (some 1) none 0
      [("v", Value.vfloat 0)] (by decide) (by decide)⟩

/- ===== The executable rational wrappers agree with the field ops ===== -/

/-- `ratAdd` is rational addition. -/
theorem ratAdd_eq (a b : Rat) : ratAdd a b = a + b := by
  have ha : (a.den : Rat) ≠ 0 := by exact_mod_cast a.den_nz
  have hb : (b.den : Rat) ≠ 0 := by exact_mod_cast b.den_nz
  rw [ratAdd, Rat.mkRat_eq_div]
  conv_rhs => rw [← Rat.num_div_den a, ← Rat.num_div_den b]
  push_cast
  field_simp

/-- `ratSub` is rational subtraction. -/
theorem ratSub_eq (a b : Rat) : ratSub a b = a - b := by
  have ha : (a.den : Rat) ≠ 0 := by exact_mod_cast a.den_nz
  have hb : (b.den : Rat) ≠ 0 := by exact_mod_cast b.den_nz
  rw [ratSub, Rat.mkRat_eq_div]
  conv_rhs => rw [← Rat.num_div_den a, ← Rat.num_div_den b]
  push_cast
  field_simp
  ring

/-- `ratMul` is rational multiplication. -/
theorem ratMul_eq (a b : Rat) : ratMul a b = a * b := by
  have ha : (a.den : Rat) ≠ 0 := by exact_mod_cast a.den_nz
  have hb : (b.den : Rat) ≠ 0 := by exact_mod_cast b.den_nz
  rw [ratMul, Rat.mkRat_eq_div]
  conv_rhs => rw [← Rat.num_div_den a, ← Rat.num_div_den b]
  push_cast
  field_simp

/-- `ratInv` is rational inversion. -/
theorem ratInv_eq (a : Rat) : ratInv a = a⁻¹ := by
  rw [Rat.inv_def', Rat.divInt_eq_div, ratInv]
  rcases le_or_lt 0 a.num with h | h
  · rw [if_pos h, Rat.mkRat_eq_div, Int.cast_natAbs, abs_of_nonneg h]
  · rw [if_neg (not_le.mpr h), Rat.mkRat_eq_div, Int.cast_natAbs, abs_of_neg h]
    push_cast
    rw [neg_div_neg_eq]

/-- `ratDiv` is rational division. -/
theorem ratDiv_eq (a b : Rat) : ratDiv a b = a / b := by
  rw [ratDiv, ratMul_eq, ratInv_eq, div_eq_mul_inv]

/-- `ratFloor` is the floor function. -/
theorem ratFloor_eq (a : Rat) : ratFloor a = ⌊a⌋ := by
  conv_rhs => rw [← Rat.num_div_den a]
  rw [Rat.floor_intCast_div_natCast, ratFloor]
  exact Int.fdiv_eq_ediv a.num (by exact_mod_cast Nat.zero_le a.den)

/- ===== Filtering an enum-driven checker loop by record index ===== -/

/-- All violations of the loop over `enumFrom n` carry an index ≥ `n`. -/
theorem checker_index_ge {g : Nat × Record → List Violation}
    (hg : ∀ p v, v ∈ g p → v.record_index = p.1) :
    ∀ (data : List Record) (n : Nat) (v : Violation),
      v ∈ (List.enumFrom n data).flatMap g → n ≤ v.record_index := by
  intro data
  induction data with
  | nil => intro n v hv; simp at hv
  | cons row rest ih =>
    intro n v hv
    rw [List.enumFrom_cons, List.flatMap_cons] at hv
    rcases List.mem_append.mp hv with h | h
    · rw [hg _ _ h]
    · exact Nat.le_of_succ_le (ih (n + 1) v h)

/-- Filtering the loop over `enumFrom n` at an index below `n` gives
nothing. -/
theorem checker_filter_lt {g : Nat × Record → List Violation}
    (hg : ∀ p v, v ∈ g p → v.record_index = p.1)
    (data : List Record) (n i : Nat) (h : i < n) :
    ((List.enumFrom n data).flatMap g).filter (fun v => v.record_index == i) = [] := by
  apply List.filter_eq_nil_iff.mpr
  intro v hv
  have := checker_index_ge hg data n v hv
  simp only [beq_iff_eq]
  omega

/-- Filtering the loop over `enumFrom n` at the index of a present row
yields exactly that row's violations. -/
theorem checker_filter_from {g : Nat × Record → List Violation}
    (hg : ∀ p v, v ∈ g p → v.record_index = p.1) :
    ∀ (data : List Record) (n i : Nat) (r : Record), n ≤ i → data[i - n]? = some r →
      ((List.enumFrom n data).flatMap g).filter (fun v => v.record_index == i) = g (i, r) := by
  intro data
  induction data with
  | nil => intro n i r hn hr; simp at hr
  | cons row rest ih =>
    intro n i r hn hr
    rw [List.enumFrom_cons, List.flatMap_cons, List.filter_append]
    by_cases hi : i = n
    · subst hi
      have hrow : r = row := by
        rw [Nat.sub_self] at hr
        simpa using hr.symm
      subst hrow
      rw [checker_filter_lt hg rest (i + 1) i (by omega), List.append_nil]
      apply List.filter_eq_self.mpr
      intro v hv
      simp [hg _ _ hv]
    · have h2 : n + 1 ≤ i := by omega
      have hr' : rest[i - (n + 1)]? = some r := by
        have hs : i - n = (i - (n + 1)) + 1 := by omega
        rw [hs] at hr
        simpa using hr
      rw [ih (n + 1) i r h2 hr']
      have hnil : (g (n, row)).filter (fun v => v.record_index == i) = [] := by
        apply List.filter_eq_nil_iff.mpr
        intro v hv
        have := hg _ _ hv
        simp only [beq_iff_eq, this]
        omega
      rw [hnil, List.nil_append]

/-- Filtering an enum-driven checker at a present row's index yields
exactly that row's violations. -/
theorem checker_filter {g : Nat × Record → List Violation}
    (hg : ∀ p v, v ∈ g p → v.record_index = p.1)
    (data : List Record) (i : Nat) (r : Record) (hr : data[i]? = some r) :
    (data.enum.flatMap g).filter (fun v => v.record_index == i) = g (i, r) := by
  have := checker_filter_from hg data 0 i r (Nat.zero_le i) (by simpa using hr)
  exact this

/-- A falsy value produces no range violations for its row. -/
theorem check_range_row_falsy {col : String} {minv maxv : Option Rat} {i : Nat} {r : Record}
    (ht : (r.getD col (.vstr "")).truthy = false) :
    check_range_row col minv maxv (i, r) = [] := by
  unfold check_range_row
  simp [ht]

/-- A truthy value that fails numeric parsing produces exactly the one
"Invalid numeric value" violation for its row. -/
theorem check_range_row_invalid {col : String} {minv maxv : Option Rat} {i : Nat} {r : Record}
    (ht : (r.getD col (.vstr "")).truthy = true)
    (hq : pyFloat? (r.getD col (.vstr "")) = none) :
    check_range_row col minv maxv (i, r) =
      [⟨i, col, r.getD col (.vstr ""), .invalidNumeric⟩] := by
  unfold check_range_row
  simp [ht, hq]

/-- With coherent bounds, a value parsing exactly to one of the bounds
produces no violation for its row. -/
theorem check_range_row_boundary {col : String} {minv maxv : Option Rat} {i : Nat}
    {r : Record} {q : Rat}
    (hq : pyFloat? (r.getD col (.vstr "")) = some q)
    (hb : ∀ m M, minv = some m → maxv = some M → m ≤ M)
    (hqb : minv = some q ∨ maxv = some q) :
    check_range_row col minv maxv (i, r) = [] := by
  unfold check_range_row
  rcases ht : (Record.getD r col (.vstr "")).truthy with _ | _
  · simp [ht]
  · simp only [ht, if_true]
    rw [hq]
    rcases minv with _ | m <;> rcases maxv with _ | M
    · simp
    · obtain rfl : M = q := by
        rcases hqb with h | h
        · exact absurd h (by simp)
        · exact Option.some.inj h
      simp [lt_irrefl]
    · obtain rfl : m = q := by
        rcases hqb with h | h
        · exact Option.some.inj h
        · exact absurd h (by simp)
      simp [lt_irrefl]
    · have hmM : m ≤ M := hb m M rfl rfl
      rcases hqb with h | h
      · have hmq : m = q := Option.some.inj h
        have h1 : ¬q < m := by rw [← hmq]; exact lt_irrefl m
        have h2 : ¬q > M := by rw [← hmq]; exact not_lt.mpr hmM
        simp [h1, h2]
      · have hMq : M = q := Option.some.inj h
        have h1 : ¬q < m := by rw [← hMq]; exact not_lt.mpr hmM
        have h2 : ¬q > M := by rw [← hMq]; exact lt_irrefl M
        simp [h1, h2]

/-- C6, counterexample: with bounds `min = 5`, `max = 3` (the `min > max`
configuration the engine never validates), the value `"5"` parses to a
number exactly equal to `min_value`, yet `check_range` emits a violation
for it, so "no violation for a record whose value parses to a number
exactly equal to min_value" fails as universally stated over all
bounds. -/
theorem C6_counterexample :
    pyFloat? (Value.vstr "5") = some 5 ∧
      check_range [[("v", Value.vstr "5")]] "v" (some 5) (some 3) =
        [⟨0, "v", Value.vstr "5", Issue.aboveMax 5 3⟩] := by
  decide

/-- C6, amended: provided the bounds are coherent (`min ≤ max` whenever
both are present), a record whose value parses to a number exactly equal
to `min_value` or `max_value` produces no violation (boundaries
inclusive); a record whose value is the empty string is skipped without a
violation; and a record whose truthy value fails numeric parsing produces
exactly one violation, the "Invalid numeric value" one. -/
theorem C6_range_boundaries_amended (data : List Record) (col : String)
    (minv maxv : Option Rat)
    (hb : ∀ m M, minv = some m → maxv = some M → m ≤ M) :
    (∀ i r q, data[i]? = some r →
       pyFloat? (r.getD col (.vstr "")) = some q →
       (minv = some q ∨ maxv = some q) →
       (check_range data col minv maxv).filter (fun v => v.record_index == i) = []) ∧
    (∀ i r, data[i]? = some r → r.getD col (.vstr "") = .vstr "" →
       (check_range data col minv maxv).filter (fun v => v.record_index == i) = []) ∧
    (∀ i r, data[i]? = some r → (r.getD col (.vstr "")).truthy = true →
       pyFloat? (r.getD col (.vstr "")) = none →
       (check_range data col minv maxv).filter (fun v => v.record_index == i) =
         [⟨i, col, r.getD col (.vstr ""), .invalidNumeric⟩]) := by
  refine ⟨?_, ?_, ?_⟩
  · intro i r q hr hq hqb
    rw [check_range, checker_filter (check_range_row_index col minv maxv) data i r hr]
    exact check_range_row_boundary hq hb hqb
  · intro i r hr hempty
    rw [check_range, checker_filter (check_range_row_index col minv maxv) data i r hr]
    apply check_range_row_falsy
    rw [hempty]
    rfl
  · intro i r hr ht hq
    rw [check_range, checker_filter (check_range_row_index col minv maxv) data i r hr]
    exact check_range_row_invalid ht hq

/-- Witness for the amended C6 on a concrete batch: index 0 sits exactly
on the minimum bound (no violation), index 1 is empty (skipped), index 2
is non-numeric (exactly one invalid-numeric violation). -/
theorem C6_range_boundaries_amended_witness :
    ((check_range [[("v", Value.vstr "5")], [("v", Value.vstr "")], [("v", Value.vstr "abc")]]
        "v" (some 5) (some 9)).filter (fun v => v.record_index == 0) = [] ∧
      (check_range [[("v", Value.vstr "5")], [("v", Value.vstr "")], [("v", Value.vstr "abc")]]
        "v" (some 5) (some 9)).filter (fun v => v.record_index == 1) = []) ∧
      (check_range [[("v", Value.vstr "5")], [("v", Value.vstr "")], [("v", Value.vstr "abc")]]
        "v" (some 5) (some 9)).filter (fun v => v.record_index == 2) =
        [⟨2, "v", Value.vstr "abc", Issue.invalidNumeric⟩] := by
  have h := C6_range_boundaries_amended
    [[("v", Value.vstr "5")], [("v", Value.vstr "")], [("v", Value.vstr "abc")]] "v"
    (some 5) (some 9)
    (by intro m M hm hM; injection hm with hm; injection hM with hM; rw [← hm, ← hM]; norm_num)
  refine ⟨⟨?_, ?_⟩, ?_⟩
  · exact h.1 0 [("v", Value.vstr "5")] 5 (by decide) (by decide) (Or.inl rfl)
  · exact h.2.1 1 [("v", Value.vstr "")] (by decide) (by decide)
  · exact h.2.2 2 [("v", Value.vstr "abc")] (by decide) (by decide) (by decide)

/-- C3: every envelope a stage handler (DQ check, transformation,
router) returns with status SKIPPED or FAILED carries an empty batch,
and on an input with an empty batch each handler returns its fixed
SKIPPED envelope — the same envelope for every configuration, so the
engine (rules, transformations, routing) is never consulted. -/
theorem C3_skip_and_failed_envelopes :
    (∀ (cfg : Option (List Rule)) (input : Option Envelope),
       (process_dq_checks cfg input).status = .SKIPPED ∨
         (process_dq_checks cfg input).status = .FAILED →
       (process_dq_checks cfg input).data = []) ∧
    (∀ (cfg : Option (List TransformSpec)) (input : Option Envelope),
       (process_transformations cfg input).status = .SKIPPED ∨
         (process_transformations cfg input).status = .FAILED →
       (process_transformations cfg input).data = []) ∧
    (∀ (cfg : Option (List Destination)) (input : Option Envelope),
       (process_router cfg input).status = .SKIPPED ∨
         (process_router cfg input).status = .FAILED →
       (process_router cfg input).data = []) ∧
    (∀ (cfg : Option (List Rule)) (env : Envelope), env.data = [] →
       process_dq_checks cfg (some env) = dq_skip_empty) ∧
    (∀ (cfg : Option (List TransformSpec)) (env : Envelope), env.data = [] →
       process_transformations cfg (some env) = transform_skip_empty) ∧
    (∀ (cfg : Option (List Destination)) (env : Envelope), env.data = [] →
       process_router cfg (some env) = router_skip_empty) := by
  refine ⟨?_, ?_, ?_, ?_, ?_, ?_⟩
  · intro cfg input h
    rcases input with _ | inp
    · rfl
    · rcases cfg with _ | rules <;> by_cases he : inp.data.isEmpty <;>
        simp [process_dq_checks, he, dq_skip_empty] at h ⊢
  · intro cfg input h
    rcases input with _ | inp
    · rfl
    · rcases cfg with _ | specs <;> by_cases he : inp.data.isEmpty <;>
        simp [process_transformations, he, transform_skip_empty] at h ⊢
  · intro cfg input h
    rcases input with _ | inp
    · rfl
    · rcases cfg with _ | dests <;> by_cases he : inp.data.isEmpty <;>
        simp [process_router, he, router_skip_empty] at h ⊢
  · intro cfg env he
    simp [process_dq_checks, he]
  · intro cfg env he
    simp [process_transformations, he]
  · intro cfg env he
    simp [process_router, he]

/-- Witness for C3 at concrete configurations: a FAILED DQ envelope (from
an unloadable configuration) carries an empty batch, and each handler on
an empty input batch returns its SKIPPED envelope. -/
theorem C3_skip_and_failed_envelopes_witness :
    (process_dq_checks none
        (some { data := [[("a", Value.vstr "1")]], record_count := 1 })).data = [] ∧
    process_dq_checks (some []) (some { data := ([] : List Record) }) = dq_skip_empty ∧
    process_transformations (some []) (some { data := ([] : List Record) }) =
      transform_skip_empty ∧
    process_router (some []) (some { data := ([] : List Record) }) = router_skip_empty :=
  ⟨C3_skip_and_failed_envelopes.1 none
      (some { data := [[("a", Value.vstr "1")]], record_count := 1 })
      (Or.inr (by decide)),
    C3_skip_and_failed_envelopes.2.2.2.1 (some []) { data := ([] : List Record) } rfl,
    C3_skip_and_failed_envelopes.2.2.2.2.1 (some []) { data := ([] : List Record) } rfl,
    C3_skip_and_failed_envelopes.2.2.2.2.2 (some []) { data := ([] : List Record) } rfl⟩

/- ===== C1: DQ hard-failure surfacing ===== -/

/-- The rule loop never decreases the accumulated failure count. -/
theorem run_dq_foldl_failures_mono (data : List Record) :
    ∀ (rules : List Rule) (init : DqResults),
      init.total_failures ≤ (rules.foldl (run_dq_rule data) init).total_failures := by
  intro rules
  induction rules with
  | nil => intro init; exact le_refl _
  | cons r rest ih =>
    intro init
    refine le_trans ?_ (ih (run_dq_rule data init r))
    unfold run_dq_rule
    by_cases h : r.action == "fail" <;> simp [h]

/-- A fail-action rule with a nonzero number of violations forces a
positive `total_failures` in the DQ results. -/
theorem run_dq_checks_pos (data : List Record) (rules : List Rule) (r : Rule)
    (hr : r ∈ rules) (ha : r.action = "fail") (hf : rule_failures data r ≠ []) :
    0 < (run_dq_checks data rules).total_failures := by
  obtain ⟨l1, l2, rfl⟩ := List.append_of_mem hr
  unfold run_dq_checks
  rw [List.foldl_append, List.foldl_cons]
  refine lt_of_lt_of_le ?_ (run_dq_foldl_failures_mono data l2 _)
  unfold run_dq_rule
  have hlen := List.length_pos.mpr hf
  simp [ha]
  omega

/-- C1, counterexample: a `fail`-action range rule produces one
violation, yet `process_dq_checks` returns a SUCCESS envelope (not
FAILED); run under the orchestrator with two further stages, the
pipeline continues through all four components (trace `[0, 1, 2, 3]`),
ends with overall status SUCCESS, and the summary reports the DQ stage
as COMPLETED WITH WARNINGS — the opposite of halting with FAILED. -/
theorem C1_counterexample :
    (run_dq_checks [[("v", Value.vstr "5")]]
      [{ rule_name := "range_check", action := "fail", column := "v",
         min_value := some 10 }]).total_failures = 1 ∧
    (process_dq_checks
      (some [{ rule_name := "range_check", action := "fail", column := "v",
               min_value := some 10 }])
      (some { data := [[("v", Value.vstr "5")]], record_count := 1 })).status = .SUCCESS ∧
    (controller_main
      [⟨"INGESTOR", ingestion_handler { data := [[("v", Value.vstr "5")]], record_count := 1 }⟩,
       ⟨"DQ-CHECKER", dq_handler
         (some [{ rule_name := "range_check", action := "fail", column := "v",
                  min_value := some 10 }])⟩,
       ⟨"TRANSFORMER", transform_handler (some [])⟩,
       ⟨"ROUTER", router_handler (some [])⟩]).status = .SUCCESS ∧
    (controller_main
      [⟨"INGESTOR", ingestion_handler { data := [[("v", Value.vstr "5")]], record_count := 1 }⟩,
       ⟨"DQ-CHECKER", dq_handler
         (some [{ rule_name := "range_check", action := "fail", column := "v",
                  min_value := some 10 }])⟩,
       ⟨"TRANSFORMER", transform_handler (some [])⟩,
       ⟨"ROUTER", router_handler (some [])⟩]).trace = [0, 1, 2, 3] ∧
    (controller_main
      [⟨"INGESTOR", ingestion_handler { data := [[("v", Value.vstr "5")]], record_count := 1 }⟩,
       ⟨"DQ-CHECKER", dq_handler
         (some [{ rule_name := "range_check", action := "fail", column := "v",
                  min_value := some 10 }])⟩,
       ⟨"TRANSFORMER", transform_handler (some [])⟩,
       ⟨"ROUTER", router_handler (some [])⟩]).summary =
      [("INGESTOR", "SUCCESS"), ("DQ-CHECKER", "COMPLETED WITH WARNINGS"),
       ("TRANSFORMER", "SUCCESS"), ("ROUTER", "SUCCESS")] := by
  decide

/-- C1, amended: when a rule whose action is `fail` produces a nonzero
number of violations on a nonempty batch, `process_dq_checks` still
returns an envelope with status SUCCESS and `passed = False`; the
orchestrator's `execute_component` does not raise for it (the pipeline
continues), and the final summary reports the DQ stage as COMPLETED WITH
WARNINGS instead of surfacing a hard failure. -/
theorem C1_dq_fail_action_amended (rules : List Rule) (inp : Envelope) (r : Rule)
    (hr : r ∈ rules) (ha : r.action = "fail")
    (hf : rule_failures inp.data r ≠ []) (hne : inp.data ≠ []) :
    (process_dq_checks (some rules) (some inp)).status = .SUCCESS ∧
    (process_dq_checks (some rules) (some inp)).passed = some false ∧
    execute_component "DQ-CHECKER" (dq_handler (some rules)) (some inp) =
      .ok (some (process_dq_checks (some rules) (some inp))) ∧
    summary_status "DQ-CHECKER" (.res (some (process_dq_checks (some rules) (some inp)))) =
      some "COMPLETED WITH WARNINGS" := by
  have hpos := run_dq_checks_pos inp.data rules r hr ha hf
  have he : inp.data.isEmpty = false := by
    simpa [List.isEmpty_iff] using hne
  have hstat : (process_dq_checks (some rules) (some inp)).status = .SUCCESS := by
    simp [process_dq_checks, he]
  have hpassed : (process_dq_checks (some rules) (some inp)).passed = some false := by
    simp [process_dq_checks, he]
    omega
  refine ⟨hstat, hpassed, ?_, ?_⟩
  · unfold execute_component dq_handler
    simp [hstat]
  · unfold summary_status
    simp [hpassed]

/-- Witness for the amended C1 at the concrete fail-action range rule. -/
theorem C1_dq_fail_action_amended_witness :
    (process_dq_checks
      (some [{ rule_name := "range_check", action := "fail", column := "v",
               min_value := some 10 }])
      (some { data := [[("v", Value.vstr "5")]], record_count := 1 })).status = .SUCCESS ∧
    (process_dq_checks
      (some [{ rule_name := "range_check", action := "fail", column := "v",
               min_value := some 10 }])
      (some { data := [[("v", Value.vstr "5")]], record_count := 1 })).passed = some false ∧
    execute_component "DQ-CHECKER"
      (dq_handler (some [{ rule_name := "range_check", action := "fail", column := "v",
                           min_value := some 10 }]))
      (some { data := [[("v", Value.vstr "5")]], record_count := 1 }) =
      .ok (some (process_dq_checks
        (some [{ rule_name := "range_check", action := "fail", column := "v",
                 min_value := some 10 }])
        (some { data := [[("v", Value.vstr "5")]], record_count := 1 }))) ∧
    summary_status "DQ-CHECKER"
      (.res (some (process_dq_checks
        (some [{ rule_name := "range_check", action := "fail", column := "v",
                 min_value := some 10 }])
        (some { data := [[("v", Value.vstr "5")]], record_count := 1 })))) =
      some "COMPLETED WITH WARNINGS" :=
  C1_dq_fail_action_amended
    [{ rule_name := "range_check", action := "fail", column := "v", min_value := some 10 }]
    { data := [[("v", Value.vstr "5")]], record_count := 1 }
    { rule_name := "range_check", action := "fail", column := "v", min_value := some 10 }
    (List.mem_singleton.mpr rfl) rfl (by decide) (by decide)

/- ===== C2: fail-fast orchestration ===== -/

/-- Splitting the component loop: a prefix that runs to completion hands
its final data, results and trace to the loop over the remainder. -/
theorem controller_loop_append (rest : List Component) :
    ∀ (pre : List Component) (pd : Option Envelope)
      (acc : List (String × StageEntry)) (tr : List Nat) (idx : Nat),
      (controller_loop pre pd acc tr idx).all_success = true →
      controller_loop (pre ++ rest) pd acc tr idx =
        controller_loop rest (controller_loop pre pd acc tr idx).final_data
          (controller_loop pre pd acc tr idx).results
          (controller_loop pre pd acc tr idx).trace (idx + pre.length) := by
  intro pre
  induction pre with
  | nil => intro pd acc tr idx _; simp [controller_loop]
  | cons c pre' ih =>
    intro pd acc tr idx hs
    rcases heq : execute_component c.component_type c.handler pd with msg | pd'
    · simp only [controller_loop, heq] at hs
      simp at hs
    · simp only [List.cons_append, List.length_cons, controller_loop, heq] at hs ⊢
      have harith : idx + (pre'.length + 1) = idx + 1 + pre'.length := by omega
      rw [harith]
      exact ih pd' (dictSet acc c.component_type (.res pd')) (tr ++ [idx]) (idx + 1) hs

/-- The trace of a fully successful loop lists exactly the indices of its
components, in order. -/
theorem controller_loop_trace_success :
    ∀ (comps : List Component) (pd : Option Envelope)
      (acc : List (String × StageEntry)) (tr : List Nat) (idx : Nat),
      (controller_loop comps pd acc tr idx).all_success = true →
      (controller_loop comps pd acc tr idx).trace = tr ++ List.range' idx comps.length := by
  intro comps
  induction comps with
  | nil => intro pd acc tr idx _; simp [controller_loop]
  | cons c rest ih =>
    intro pd acc tr idx hs
    rcases heq : execute_component c.component_type c.handler pd with msg | pd'
    · simp only [controller_loop, heq] at hs
      simp at hs
    · simp only [List.length_cons, controller_loop, heq] at hs ⊢
      rw [ih pd' (dictSet acc c.component_type (.res pd')) (tr ++ [idx]) (idx + 1) hs]
      rw [List.range'_succ, List.append_assoc]
      rfl

/-- C2: if every component before position `k` executes successfully and
the component at position `k` raises a pipeline error or returns a FAILED
envelope, then the loop executes exactly components `0..k` (no later
component runs), and `controller_main` returns overall status FAILED with
`failed_component` set to component `k`'s type. -/
theorem C2_fail_fast (pre post : List Component) (ck : Component)
    (hpre : (controller_loop pre none [] [] 0).all_success = true)
    (hk : (∃ m, ck.handler ((controller_loop pre none [] [] 0).final_data) = .exn m) ∨
      (∃ e, ck.handler ((controller_loop pre none [] [] 0).final_data) = .ok (some e) ∧
        e.status = .FAILED)) :
    (controller_main (pre ++ ck :: post)).status = .FAILED ∧
    (controller_main (pre ++ ck :: post)).failed_component = some ck.component_type ∧
    (controller_main (pre ++ ck :: post)).trace = List.range (pre.length + 1) := by
  have hexec : ∃ msg, execute_component ck.component_type ck.handler
      ((controller_loop pre none [] [] 0).final_data) = .error msg := by
    rcases hk with ⟨m, hm⟩ | ⟨e, he, hf⟩
    · exact ⟨_, by unfold execute_component; rw [hm]⟩
    · refine ⟨ck.component_type ++ " failed: " ++ (e.error.getD "Unknown error"), ?_⟩
      unfold execute_component
      rw [he]
      simp [hf]
  obtain ⟨msg, hmsg⟩ := hexec
  have hne : (pre ++ ck :: post).isEmpty = false := by
    rcases pre with _ | ⟨c, cs⟩ <;> rfl
  have htr := controller_loop_trace_success pre none [] [] 0 hpre
  unfold controller_main
  rw [hne]
  simp only [Bool.false_eq_true, if_false]
  rw [controller_loop_append (ck :: post) pre none [] [] 0 hpre]
  simp only [controller_loop, hmsg]
  refine ⟨?_, ?_, ?_⟩
  · simp
  · simp
  · simp only [htr, List.nil_append, Nat.zero_add]
    rw [← List.range_eq_range', ← List.range_succ]

/-- Witness for C2: in a four-stage pipeline whose second component
returns a FAILED envelope, only components 0 and 1 run, and the pipeline
ends FAILED pointing at the second component. -/
theorem C2_fail_fast_witness :
    (controller_main
      ([⟨"INGESTOR", ingestion_handler { data := [[("v", Value.vstr "1")]], record_count := 1 }⟩] ++
        ⟨"DQ-CHECKER", fun _ => .ok (some { data := [], status := .FAILED, error := some "boom" })⟩ ::
        [⟨"TRANSFORMER", transform_handler (some [])⟩,
         ⟨"ROUTER", router_handler (some [])⟩])).status = .FAILED ∧
    (controller_main
      ([⟨"INGESTOR", ingestion_handler { data := [[("v", Value.vstr "1")]], record_count := 1 }⟩] ++
        ⟨"DQ-CHECKER", fun _ => .ok (some { data := [], status := .FAILED, error := some "boom" })⟩ ::
        [⟨"TRANSFORMER", transform_handler (some [])⟩,
         ⟨"ROUTER", router_handler (some [])⟩])).failed_component = some "DQ-CHECKER" ∧
    (controller_main
      ([⟨"INGESTOR", ingestion_handler { data := [[("v", Value.vstr "1")]], record_count := 1 }⟩] ++
        ⟨"DQ-CHECKER", fun _ => .ok (some { data := [], status := .FAILED, error := some "boom" })⟩ ::
        [⟨"TRANSFORMER", transform_handler (some [])⟩,
         ⟨"ROUTER", router_handler (some [])⟩])).trace = List.range 2 :=
  C2_fail_fast
    [⟨"INGESTOR", ingestion_handler { data := [[("v", Value.vstr "1")]], record_count := 1 }⟩]
    [⟨"TRANSFORMER", transform_handler (some [])⟩, ⟨"ROUTER", router_handler (some [])⟩]
    ⟨"DQ-CHECKER", fun _ => .ok (some { data := [], status := .FAILED, error := some "boom" })⟩
    rfl
    (Or.inr ⟨{ data := [], status := .FAILED, error := some "boom" }, rfl, rfl⟩)

/- ===== C8: date-part extraction ===== -/

/-- C8, counterexample: with an empty source value, `apply_date_extract`
leaves the record untouched — the target column is not written at all, so
the claim that the empty value is written to the target column fails (the
record does not even contain the target key). -/
theorem C8_counterexample :
    apply_date_extract [[("d", Value.vstr "")]] "d" "t" "year" = [[("d", Value.vstr "")]] ∧
    Record.get? [("d", Value.vstr "")] "t" = none ∧
    ([[("d", Value.vstr "")]] : List Record) ≠ [[("d", Value.vstr ""), ("t", Value.vstr "")]] := by
  decide

/-- C8, amended: `apply_date_extract` never raises (it is total and
length preserving); for a record whose truthy source value's first 19
characters parse against the fixed `YYYY-MM-DD HH:MM:SS` pattern it
writes the requested integer part (year/month/day) to the target column;
on parse failure of a truthy value it writes the empty string; but when
the source value is empty (falsy) the record is left unchanged — the
target column is not written. -/
theorem C8_date_extract_amended (data : List Record) (source_col target_col part : String) :
    (apply_date_extract data source_col target_col part).length = data.length ∧
    (∀ (i : Nat) (r : Record), data[i]? = some r →
       (r.getD source_col (.vstr "")).truthy = false →
       (apply_date_extract data source_col target_col part)[i]? = some r) ∧
    (∀ (i : Nat) (r : Record) (y mo d h mi s : Nat), data[i]? = some r →
       (r.getD source_col (.vstr "")).truthy = true →
       parse_datetime19 ((strOfValue (r.getD source_col (.vstr ""))).take 19) =
         some (y, mo, d, h, mi, s) →
       (apply_date_extract data source_col target_col part)[i]? =
         some (if part == "year" then r.set target_col (.vint (y : Int))
               else if part == "month" then r.set target_col (.vint (mo : Int))
               else if part == "day" then r.set target_col (.vint (d : Int))
               else r)) ∧
    (∀ (i : Nat) (r : Record), data[i]? = some r →
       (r.getD source_col (.vstr "")).truthy = true →
       parse_datetime19 ((strOfValue (r.getD source_col (.vstr ""))).take 19) = none →
       (apply_date_extract data source_col target_col part)[i]? =
         some (r.set target_col (.vstr ""))) := by
  refine ⟨by simp [apply_date_extract], ?_, ?_, ?_⟩
  · intro i r hr ht
    simp [apply_date_extract, List.getElem?_map, hr, ht]
  · intro i r y mo d h mi s hr ht hp
    simp [apply_date_extract, List.getElem?_map, hr, ht, hp]
  · intro i r hr ht hp
    simp [apply_date_extract, List.getElem?_map, hr, ht, hp]

/-- Witness for the amended C8 on a concrete batch: record 0 parses (the
month 7 is written), record 1 fails to parse (empty string written),
record 2 has an empty source (left unchanged, no target key). -/
theorem C8_date_extract_amended_witness :
    (apply_date_extract [[("d", Value.vstr "2023-07-15 10:30:00")], [("d", Value.vstr "bad")],
        [("d", Value.vstr "")]] "d" "t" "month")[0]? =
      some (Record.set [("d", Value.vstr "2023-07-15 10:30:00")] "t" (Value.vint 7)) ∧
    (apply_date_extract [[("d", Value.vstr "2023-07-15 10:30:00")], [("d", Value.vstr "bad")],
        [("d", Value.vstr "")]] "d" "t" "month")[1]? =
      some (Record.set [("d", Value.vstr "bad")] "t" (Value.vstr "")) ∧
    (apply_date_extract [[("d", Value.vstr "2023-07-15 10:30:00")], [("d", Value.vstr "bad")],
        [("d", Value.vstr "")]] "d" "t" "month")[2]? = some [("d", Value.vstr "")] := by
  have h := C8_date_extract_amended
    [[("d", Value.vstr "2023-07-15 10:30:00")], [("d", Value.vstr "bad")], [("d", Value.vstr "")]]
    "d" "t" "month"
  refine ⟨?_, ?_, ?_⟩
  · have := h.2.2.1 0 [("d", Value.vstr "2023-07-15 10:30:00")] 2023 7 15 10 30 0
      (by decide) (by decide) (by decide)
    simpa using this
  · exact h.2.2.2 1 [("d", Value.vstr "bad")] (by decide) (by decide) (by decide)
  · exact h.2.1 2 [("d", Value.vstr "")] (by decide) (by decide)

/- ===== C7: derived columns ===== -/

/-- When no numeric-looking field fails `float()`, the binding
comprehension succeeds and binds exactly as `code_env` describes. -/
theorem bind_local_vars_some (row : Record)
    (h : ∀ kv ∈ row, looks_numeric kv.2 = true → (pyFloat? kv.2).isSome) :
    bind_local_vars row =
      some (row.map (fun kv =>
        (kv.1, if looks_numeric kv.2 then (pyFloat? kv.2).getD 0 else 0))) := by
  induction row with
  | nil => rfl
  | cons kv rest ih =>
    have hrest := ih (fun kv' h' hl => h kv' (List.mem_cons_of_mem kv h') hl)
    rcases hl : looks_numeric kv.2 with _ | _
    · simp [bind_local_vars, hl, hrest]
    · have hsome := h kv (List.mem_cons_self kv rest) hl
      rcases hq : pyFloat? kv.2 with _ | q
      · rw [hq] at hsome
        simp at hsome
      · simp [bind_local_vars, hl, hq, hrest]

/-- A numeric-looking field whose `float()` fails poisons the whole
binding comprehension. -/
theorem bind_local_vars_none (row : Record) (kv : String × Value) (hkv : kv ∈ row)
    (hl : looks_numeric kv.2 = true) (hf : pyFloat? kv.2 = none) :
    bind_local_vars row = none := by
  induction row with
  | nil => simp at hkv
  | cons kv' rest ih =>
    rcases List.mem_cons.mp hkv with rfl | hmem
    · simp only [bind_local_vars, hl, if_true, hf]
    · rw [bind_local_vars, ih hmem]
      rcases (if looks_numeric kv'.2 then pyFloat? kv'.2 else some 0) with _ | q <;> rfl

/-- C7, counterexample: the field value `"1-2"` does not parse as a
signed decimal, so the claim binds it to zero and predicts the expression
`b` (which never touches it) to evaluate to `3.0`; but the source's digit
test (`str(v).replace('.','').replace('-','').isdigit()`) accepts
`"1-2"`, `float()` then raises inside the binding comprehension, and the
record's derived column silently becomes the integer `0`. -/
theorem C7_counterexample :
    parse_signed_decimal "3" = some 3 ∧
    parse_signed_decimal "1-2" = none ∧
    derived_column_claim [[("a", Value.vstr "1-2"), ("b", Value.vstr "3")]] (.var "b") "t" =
      [[("a", Value.vstr "1-2"), ("b", Value.vstr "3"), ("t", Value.vfloat 3)]] ∧
    apply_derived_column [[("a", Value.vstr "1-2"), ("b", Value.vstr "3")]] (.var "b") "t" =
      [[("a", Value.vstr "1-2"), ("b", Value.vstr "3"), ("t", Value.vint 0)]] ∧
    Value.vint 0 ≠ Value.vfloat 3 := by
  decide

/-- C7, amended: `apply_derived_column` never raises (total, length
preserving). A field is bound as a numeric variable when it passes the
source's digit test (truthy, and all characters are digits once `.` and
`-` are removed), other fields are bound to zero; when every digit-test
passing field also parses under `float()`, the expression is evaluated
over those bindings and the result, rounded to two decimals, is written
to the target column, any evaluation error yielding `0`; but when some
digit-test passing field fails `float()`, the record's target column is
set to `0` outright — such values are not bound as zero. -/
theorem C7_derived_column_amended (data : List Record) (expression : Expr)
    (target_col : String) :
    (apply_derived_column data expression target_col).length = data.length ∧
    (∀ (i : Nat) (r : Record), data[i]? = some r →
       (∀ kv ∈ r, looks_numeric kv.2 = true → (pyFloat? kv.2).isSome) →
       (apply_derived_column data expression target_col)[i]? =
         some (match evalExpr (code_env r) expression with
               | none => r.set target_col (.vint 0)
               | some q => r.set target_col (.vfloat (round2 q)))) ∧
    (∀ (i : Nat) (r : Record) (kv : String × Value), data[i]? = some r → kv ∈ r →
       looks_numeric kv.2 = true → pyFloat? kv.2 = none →
       (apply_derived_column data expression target_col)[i]? =
         some (r.set target_col (.vint 0))) := by
  refine ⟨by simp [apply_derived_column], ?_, ?_⟩
  · intro i r hr hok
    rw [apply_derived_column, List.getElem?_map, hr, Option.map_some']
    simp only [bind_local_vars_some r hok]
    rfl
  · intro i r kv hr hkv hl hf
    rw [apply_derived_column, List.getElem?_map, hr, Option.map_some']
    simp only [bind_local_vars_none r kv hkv hl hf]

/-- Witness for the amended C7: `price * qty` over numeric fields gives
the rounded product; a record with the poisoned value `"1-2"` gets `0`. -/
theorem C7_derived_column_amended_witness :
    (apply_derived_column [[("price", Value.vstr "2.5"), ("qty", Value.vstr "4")]]
        (.mul (.var "price") (.var "qty")) "t")[0]? =
      some [("price", Value.vstr "2.5"), ("qty", Value.vstr "4"), ("t", Value.vfloat 10)] ∧
    (apply_derived_column [[("a", Value.vstr "1-2")]] (.lit 7) "t")[0]? =
      some [("a", Value.vstr "1-2"), ("t", Value.vint 0)] := by
  constructor
  · have h := (C7_derived_column_amended [[("price", Value.vstr "2.5"), ("qty", Value.vstr "4")]]
      (.mul (.var "price") (.var "qty")) "t").2.1 0
      [("price", Value.vstr "2.5"), ("qty", Value.vstr "4")] (by decide) (by decide)
    rw [h]
    decide
  · have h := (C7_derived_column_amended [[("a", Value.vstr "1-2")]] (.lit 7) "t").2.2 0
      [("a", Value.vstr "1-2")] ("a", Value.vstr "1-2") (by decide) (by decide) (by decide)
      (by decide)
    rw [h]
    decide

/- ===== C4 and C9: the join engine ===== -/

/-- The grouped lookup built by the `child_lookup` fold returns, at any
key, the accumulator's entries followed by the child records with that
join-key value, in input order. -/
theorem child_lookup_fold (k : String) :
    ∀ (child : List Record) (m0 : Value → List Record) (key : Value),
      (child.foldl
        (fun m row => fun q => if q = joinKeyOf row k then m q ++ [row] else m q) m0) key =
        m0 key ++ child.filter (fun c => joinKeyOf c k == key) := by
  intro child
  induction child with
  | nil => intro m0 key; simp
  | cons r rest ih =>
    intro m0 key
    rw [List.foldl_cons, ih, List.filter_cons]
    by_cases h : key = joinKeyOf r k
    · simp [h, List.append_assoc]
    · simp [h, Ne.symm h]

/-- The lookup dict of `join_datasets` groups exactly the child records
sharing each join-key value, in input order. -/
theorem child_lookup_eq (child : List Record) (k : String) (key : Value) :
    child_lookup child k key = child.filter (fun c => joinKeyOf c k == key) := by
  rw [child_lookup, child_lookup_fold]
  simp

/-- On a nonempty parent batch, `join_datasets` computes exactly the
concatenation of the spec-level per-parent blocks. -/
theorem join_datasets_eq (parent child : List Record) (k jt : String) (hne : parent ≠ []) :
    join_datasets parent child k jt = .ok (parent.flatMap (join_block child k jt)) := by
  have he : parent.isEmpty = false := by
    rcases parent with _ | ⟨p, ps⟩
    · exact absurd rfl hne
    · rfl
  rw [join_datasets]
  simp only [he, Bool.false_eq_true, if_false]
  congr 1
  have hfun : ∀ p : Record,
      (let child_rows := child_lookup child k (joinKeyOf p k)
       if !child_rows.isEmpty then child_rows.map (fun c => merge_rows k p c)
       else if jt == "left" then [p] else []) = join_block child k jt p := by
    intro p
    simp only [child_lookup_eq]
    rw [join_block]
    rcases hc : (child.filter (fun c => joinKeyOf c k == joinKeyOf p k)).isEmpty with _ | _ <;>
      simp [matching_children, hc]
  exact funext hfun ▸ rfl

/-- C4: `join_datasets` on a nonempty parent emits, parent by parent in
order, one merged record per matching child (exactly M outputs for M ≥ 1
matches), and for a parent with no match exactly the unmodified parent
record under a left join and nothing under an inner join; an empty
parent batch is an `IngestionError`. -/
theorem C4_join_semantics (parent child : List Record) (k jt : String) :
    (parent = [] → ∃ e, join_datasets parent child k jt = .error e) ∧
    (parent ≠ [] →
       join_datasets parent child k jt = .ok (parent.flatMap (join_block child k jt))) ∧
    (∀ p : Record, 1 ≤ (matching_children child k p).length →
       (join_block child k jt p).length = (matching_children child k p).length) ∧
    (∀ p : Record, matching_children child k p = [] →
       join_block child k jt p = if jt == "left" then [p] else []) := by
  refine ⟨?_, join_datasets_eq parent child k jt, ?_, ?_⟩
  · intro h
    subst h
    exact ⟨"Join operation failed: Parent dataset is empty", rfl⟩
  · intro p hp
    have hne : (matching_children child k p).isEmpty = false := by
      rcases hm : matching_children child k p with _ | ⟨c, cs⟩
      · rw [hm] at hp
        simp at hp
      · rfl
    rw [join_block]
    simp [hne]
  · intro p hp
    rw [join_block]
    simp [hp]

/-- Witness for C4 on the spec's end-to-end scenario: parents with ids
1, 2, 3 and two children for id 1; the left join emits 4 records (id 1
twice, ids 2 and 3 once, unmodified), the inner join emits 2; an empty
parent errors. -/
theorem C4_join_semantics_witness :
    join_datasets
      [[("id", Value.vstr "1"), ("p", Value.vstr "x")],
       [("id", Value.vstr "2"), ("p", Value.vstr "y")],
       [("id", Value.vstr "3"), ("p", Value.vstr "z")]]
      [[("id", Value.vstr "1"), ("c", Value.vstr "k1")],
       [("id", Value.vstr "1"), ("c", Value.vstr "k2")]] "id" "left" =
      .ok (([[("id", Value.vstr "1"), ("p", Value.vstr "x")],
            [("id", Value.vstr "2"), ("p", Value.vstr "y")],
            [("id", Value.vstr "3"), ("p", Value.vstr "z")]] : List Record).flatMap
        (join_block
          [[("id", Value.vstr "1"), ("c", Value.vstr "k1")],
           [("id", Value.vstr "1"), ("c", Value.vstr "k2")]] "id" "left")) ∧
    (join_block
      [[("id", Value.vstr "1"), ("c", Value.vstr "k1")],
       [("id", Value.vstr "1"), ("c", Value.vstr "k2")]] "id" "left"
      [("id", Value.vstr "1"), ("p", Value.vstr "x")]).length = 2 ∧
    join_block
      [[("id", Value.vstr "1"), ("c", Value.vstr "k1")],
       [("id", Value.vstr "1"), ("c", Value.vstr "k2")]] "id" "inner"
      [("id", Value.vstr "2"), ("p", Value.vstr "y")] = [] ∧
    (∃ e, join_datasets []
      [[("id", Value.vstr "1"), ("c", Value.vstr "k1")]] "id" "left" = .error e) := by
  refine ⟨?_, ?_, ?_, ?_⟩
  · exact (C4_join_semantics _ _ "id" "left").2.1 (by decide)
  · have h := (C4_join_semantics
      ([] : List Record)
      [[("id", Value.vstr "1"), ("c", Value.vstr "k1")],
       [("id", Value.vstr "1"), ("c", Value.vstr "k2")]] "id" "left").2.2.1
      [("id", Value.vstr "1"), ("p", Value.vstr "x")] (by decide)
    rw [h]
    decide
  · have h := (C4_join_semantics
      ([] : List Record)
      [[("id", Value.vstr "1"), ("c", Value.vstr "k1")],
       [("id", Value.vstr "1"), ("c", Value.vstr "k2")]] "id" "inner").2.2.2
      [("id", Value.vstr "2"), ("p", Value.vstr "y")] (by decide)
    rw [h]
    decide
  · exact (C4_join_semantics [] [[("id", Value.vstr "1"), ("c", Value.vstr "k1")]]
      "id" "left").1 rfl

/-- C9, counterexample: swapping two child records that share the same
join-key value changes the order of the merged records in the output, so
the output list is not literally unchanged under such a permutation. -/
theorem C9_counterexample :
    joinKeyOf [("id", Value.vstr "1"), ("b", Value.vstr "x")] "id" =
      joinKeyOf [("id", Value.vstr "1"), ("b", Value.vstr "y")] "id" ∧
    join_datasets [[("id", Value.vstr "1")]]
      [[("id", Value.vstr "1"), ("b", Value.vstr "x")],
       [("id", Value.vstr "1"), ("b", Value.vstr "y")]] "id" "left" ≠
    join_datasets [[("id", Value.vstr "1")]]
      [[("id", Value.vstr "1"), ("b", Value.vstr "y")],
       [("id", Value.vstr "1"), ("b", Value.vstr "x")]] "id" "left" := by
  decide

/-- C9, amended: permuting the child records (in particular those sharing
one join-key value) leaves the output of `join_datasets` unchanged as a
multiset — the new output is a permutation of the old — though not
necessarily as an ordered list. -/
theorem C9_join_perm_amended (parent child child' : List Record) (k jt : String)
    (hperm : child.Perm child') (hne : parent ≠ []) :
    ∃ out out', join_datasets parent child k jt = .ok out ∧
      join_datasets parent child' k jt = .ok out' ∧ out.Perm out' := by
  refine ⟨_, _, join_datasets_eq parent child k jt hne,
    join_datasets_eq parent child' k jt hne, ?_⟩
  apply List.Perm.flatMap_left
  intro p _
  have hm : (matching_children child k p).Perm (matching_children child' k p) :=
    hperm.filter _
  rw [join_block, join_block]
  by_cases hc : matching_children child k p = []
  · have hc' : matching_children child' k p = [] := by
      rw [hc] at hm
      exact hm.symm.eq_nil
    simp [hc, hc']
  · have hc' : matching_children child' k p ≠ [] := by
      intro h0
      rw [h0] at hm
      exact hc hm.eq_nil
    have he : (matching_children child k p).isEmpty = false := by
      rcases hx : matching_children child k p with _ | _
      · exact absurd hx hc
      · rfl
    have he' : (matching_children child' k p).isEmpty = false := by
      rcases hx : matching_children child' k p with _ | _
      · exact absurd hx hc'
      · rfl
    simp only [he, he', Bool.not_false, if_true]
    exact hm.map _

/-- Witness for the amended C9 at the counterexample's inputs: the two
outputs are permutations of each other. -/
theorem C9_join_perm_amended_witness :
    ∃ out out', join_datasets [[("id", Value.vstr "1")]]
        [[("id", Value.vstr "1"), ("b", Value.vstr "x")],
         [("id", Value.vstr "1"), ("b", Value.vstr "y")]] "id" "left" = .ok out ∧
      join_datasets [[("id", Value.vstr "1")]]
        [[("id", Value.vstr "1"), ("b", Value.vstr "y")],
         [("id", Value.vstr "1"), ("b", Value.vstr "x")]] "id" "left" = .ok out' ∧
      out.Perm out' :=
  C9_join_perm_amended [[("id", Value.vstr "1")]]
    [[("id", Value.vstr "1"), ("b", Value.vstr "x")],
     [("id", Value.vstr "1"), ("b", Value.vstr "y")]]
    [[("id", Value.vstr "1"), ("b", Value.vstr "y")],
     [("id", Value.vstr "1"), ("b", Value.vstr "x")]] "id" "left"
    (List.Perm.swap _ _ _) (by decide)

/- ===== C5: duplicate detection ===== -/

/-- `find?` over `range n` misses when the predicate fails below `n`. -/
theorem range_find?_none {p : Nat → Bool} {n : Nat} (h : ∀ j, j < n → p j = false) :
    (List.range n).find? p = none :=
  List.find?_eq_none.mpr (fun x hx => by rw [h x (List.mem_range.mp hx)]; simp)

/-- `find?` over `range n` returns the least index satisfying the
predicate. -/
theorem range_find?_some {p : Nat → Bool} {n j : Nat} (hj : j < n) (hp : p j = true)
    (hmin : ∀ m, m < j → p m = false) : (List.range n).find? p = some j := by
  induction n with
  | zero => omega
  | succ m ih =>
    rw [List.range_succ, List.find?_append]
    by_cases hjm : j < m
    · rw [ih hjm]
      rfl
    · have hje : j = m := by omega
      subst hje
      rw [range_find?_none (fun x hx => hmin x hx)]
      simp [hp]

/-- `filterMap` over a list where the function always hits is `map`. -/
theorem filterMap_congr_some {α β : Type} (g : α → β) :
    ∀ (l : List α) (f : α → Option β), (∀ a ∈ l, f a = some (g a)) →
      l.filterMap f = l.map g := by
  intro l
  induction l with
  | nil => intro f _; rfl
  | cons a rest ih =>
    intro f h
    rw [List.filterMap_cons, h a (List.mem_cons_self a rest),
      ih f (fun x hx => h x (List.mem_cons_of_mem a hx)), List.map_cons]

/-- Loop invariant of `check_duplicates`: when `seen` maps each key to
the index of its first occurrence among the rows before position `i0`
and `rest` is the suffix of the batch from `i0`, the loop computes the
spec-level duplicate items for the remaining indices. -/
theorem check_duplicates_go_spec (cols : List String) (data : List Record) :
    ∀ (rest : List Record) (i0 : Nat) (seen : List String → Option Nat),
      data.drop i0 = rest →
      (∀ key j, seen key = some j ↔
        (j < i0 ∧ keyAt data cols j = key ∧ ∀ m, m < j → keyAt data cols m ≠ key)) →
      check_duplicates_go cols seen i0 rest =
        (List.range' i0 rest.length).filterMap (dupItem data cols) := by
  intro rest
  induction rest with
  | nil => intro i0 seen _ _; rfl
  | cons row rest' ih =>
    intro i0 seen hdrop hinv
    have hget : data[i0]? = some row := by
      have h0 : (data.drop i0)[0]? = some row := by rw [hdrop]; simp
      rw [List.getElem?_drop] at h0
      simpa using h0
    have hkey : keyAt data cols i0 = compositeKey row cols := by
      rw [keyAt, hget]
      rfl
    have hdrop' : data.drop (i0 + 1) = rest' := by
      rw [← List.tail_drop, hdrop]
      rfl
    rw [List.length_cons, List.range'_succ, List.filterMap_cons]
    rcases hseen : seen (compositeKey row cols) with _ | j
    · have hno : ∀ m, m < i0 → keyAt data cols m ≠ compositeKey row cols := by
        intro m hm hcontra
        have hex : ∃ t, t < i0 ∧ keyAt data cols t = compositeKey row cols := ⟨m, hm, hcontra⟩
        have hfind := Nat.find_spec hex
        have hsome := (hinv (compositeKey row cols) (Nat.find hex)).mpr
          ⟨hfind.1, hfind.2, fun m' hm' hk' =>
            Nat.find_min hex hm' ⟨lt_trans hm' hfind.1, hk'⟩⟩
        rw [hseen] at hsome
        exact Option.noConfusion hsome
      have hdup : dupItem data cols i0 = none := by
        rw [dupItem, range_find?_none]
        intro m hm
        have := hno m hm
        rw [hkey]
        simp [this]
      simp only [hdup]
      rw [check_duplicates_go]
      simp only [hseen]
      apply ih (i0 + 1) _ hdrop'
      intro key' j'
      by_cases hk : key' = compositeKey row cols
      · subst hk
        simp only [if_pos rfl]
        constructor
        · intro h
          obtain rfl : i0 = j' := by injection h
          exact ⟨Nat.lt_succ_self i0, hkey, fun m hm => hno m hm⟩
        · rintro ⟨hlt, hkj, hmin⟩
          by_cases hji : j' = i0
          · rw [hji]
            simp
          · have hjlt : j' < i0 := by omega
            exact absurd hkj (hno j' hjlt)
      · simp only [if_neg hk]
        rw [hinv key' j']
        constructor
        · rintro ⟨h1, h2, h3⟩
          exact ⟨by omega, h2, h3⟩
        · rintro ⟨h1, h2, h3⟩
          refine ⟨?_, h2, h3⟩
          by_cases hji : j' = i0
          · rw [hji] at h2
            rw [hkey] at h2
            exact absurd h2.symm hk
          · omega
    · obtain ⟨hjlt, hjk, hjmin⟩ := (hinv _ j).mp hseen
      have hdup : dupItem data cols i0 =
          some ⟨i0, String.intercalate ", " cols, .vstr (tupleRepr (keyAt data cols i0)),
            .duplicateAt j⟩ := by
        rw [dupItem, range_find?_some hjlt]
        · rw [hkey]
          simp [hjk]
        · intro m hm
          have := hjmin m hm
          rw [hkey]
          simp [this]
      rw [hdup]
      rw [check_duplicates_go]
      simp only [hseen]
      rw [hkey]
      congr 1
      apply ih (i0 + 1) seen hdrop'
      intro key' j'
      rw [hinv key' j']
      constructor
      · rintro ⟨h1, h2, h3⟩
        exact ⟨by omega, h2, h3⟩
      · rintro ⟨h1, h2, h3⟩
        refine ⟨?_, h2, h3⟩
        by_cases hji : j' = i0
        · subst hji
          rw [hkey] at h2
          subst h2
          exact absurd hjk (h3 j hjlt)
        · omega

/-- `check_duplicates` computes exactly the spec-level duplicate list. -/
theorem check_duplicates_eq (data : List Record) (cols : List String) :
    check_duplicates data cols = dup_spec data cols := by
  rw [check_duplicates, dup_spec, List.range_eq_range']
  refine check_duplicates_go_spec cols data data 0 (fun _ => none) rfl ?_
  intro key j
  constructor
  · intro h
    exact Option.noConfusion h
  · rintro ⟨h, -, -⟩
    omega

/-- A spec-level duplicate item carries its own index. -/
theorem dupItem_index {data : List Record} {cols : List String} {i : Nat} {v : Violation}
    (h : dupItem data cols i = some v) : v.record_index = i := by
  rw [dupItem] at h
  rcases hf : (List.range i).find?
      (fun j => keyAt data cols j == keyAt data cols i) with _ | j
  · rw [hf] at h
    exact Option.noConfusion h
  · rw [hf] at h
    injection h with h
    rw [← h]

/-- Filtering the spec-level duplicates by the key of their record is the
same as filtering the index list by key first. -/
theorem dup_filter_key (data : List Record) (cols : List String) (kv : List String) :
    ∀ l : List Nat,
      (l.filterMap (dupItem data cols)).filter
          (fun v => keyAt data cols v.record_index == kv) =
        (l.filter (fun i => keyAt data cols i == kv)).filterMap (dupItem data cols) := by
  intro l
  induction l with
  | nil => rfl
  | cons i rest ih =>
    rcases hd : dupItem data cols i with _ | v
    · rw [List.filterMap_cons]
      simp only [hd]
      rw [ih, List.filter_cons]
      rcases hk : (keyAt data cols i == kv) with _ | _
      · simp
      · simp [List.filterMap_cons, hd]
    · have hvi : v.record_index = i := dupItem_index hd
      rw [List.filterMap_cons]
      simp only [hd]
      rw [List.filter_cons, List.filter_cons, hvi]
      rcases hk : (keyAt data cols i == kv) with _ | _
      · simp [hk, ih]
      · simp [hk, ih, List.filterMap_cons, hd]

/-- C5: `check_duplicates` equals the spec-level description (one
violation per occurrence after the first, each referencing the first
occurrence's index); a record whose composite key has no earlier equal
key is never a violation; and for any composite key with occurrence
indices `f :: tl` (first occurrence `f`), the violations for that key are
exactly one per element of `tl`, each with issue referencing `f` — K
occurrences give exactly K − 1 violations. -/
theorem C5_duplicate_semantics (data : List Record) (cols : List String) :
    check_duplicates data cols = dup_spec data cols ∧
    (∀ i : Nat, (∀ j, j < i → keyAt data cols j ≠ keyAt data cols i) →
       ∀ v ∈ check_duplicates data cols, v.record_index ≠ i) ∧
    (∀ (kv : List String) (f : Nat) (tl : List Nat),
       (List.range data.length).filter (fun i => keyAt data cols i == kv) = f :: tl →
       (check_duplicates data cols).filter
           (fun v => keyAt data cols v.record_index == kv) =
         tl.map (fun i => ⟨i, String.intercalate ", " cols,
           .vstr (tupleRepr (keyAt data cols i)), .duplicateAt f⟩) ∧
       ((check_duplicates data cols).filter
           (fun v => keyAt data cols v.record_index == kv)).length =
         ((List.range data.length).filter
           (fun i => keyAt data cols i == kv)).length - 1) := by
  refine ⟨check_duplicates_eq data cols, ?_, ?_⟩
  · intro i hno v hv hvi
    rw [check_duplicates_eq data cols, dup_spec] at hv
    obtain ⟨a, ha, hda⟩ := List.mem_filterMap.mp hv
    have hai : a = i := by rw [← dupItem_index hda, hvi]
    subst hai
    rw [dupItem] at hda
    rcases hf : (List.range a).find?
        (fun j => keyAt data cols j == keyAt data cols a) with _ | j
    · rw [hf] at hda
      exact Option.noConfusion hda
    · have hpj := List.find?_some hf
      have hjmem := List.mem_of_find?_eq_some hf
      have hjlt : j < a := List.mem_range.mp hjmem
      exact hno j hjlt (by simpa using hpj)
  · intro kv f tl hocc
    have hpw : ((List.range data.length).filter
        (fun i => keyAt data cols i == kv)).Pairwise (· < ·) :=
      (List.pairwise_lt_range data.length).filter _
    rw [hocc] at hpw
    have hflt : ∀ x ∈ tl, f < x := fun x hx => List.rel_of_pairwise_cons hpw hx
    have hfmem : f ∈ (List.range data.length).filter (fun i => keyAt data cols i == kv) := by
      rw [hocc]
      exact List.mem_cons_self f tl
    have hfkey : keyAt data cols f = kv := by
      have := (List.mem_filter.mp hfmem).2
      simpa using this
    have hmin : ∀ j, j < f → keyAt data cols j ≠ kv := by
      intro j hj hcontra
      have hjn : j < data.length := by
        have hfn : f < data.length := List.mem_range.mp (List.mem_filter.mp hfmem).1
        omega
      have hjmem : j ∈ (List.range data.length).filter
          (fun i => keyAt data cols i == kv) := by
        rw [List.mem_filter]
        exact ⟨List.mem_range.mpr hjn, by simpa using hcontra⟩
      rw [hocc] at hjmem
      rcases List.mem_cons.mp hjmem with rfl | hjtl
      · omega
      · exact absurd (hflt j hjtl) (by omega)
    have hnone : dupItem data cols f = none := by
      rw [dupItem, range_find?_none]
      intro m hm
      have := hmin m hm
      rw [hfkey]
      simp [this]
    have hsome : ∀ i ∈ tl, dupItem data cols i =
        some ⟨i, String.intercalate ", " cols,
          .vstr (tupleRepr (keyAt data cols i)), .duplicateAt f⟩ := by
      intro i hi
      have hikey : keyAt data cols i = kv := by
        have hmem : i ∈ (List.range data.length).filter
            (fun x => keyAt data cols x == kv) := by
          rw [hocc]
          exact List.mem_cons_of_mem f hi
        have := (List.mem_filter.mp hmem).2
        simpa using this
      rw [dupItem, range_find?_some (hflt i hi)]
      · rw [hfkey, hikey]
        simp
      · intro m hm
        have := hmin m hm
        rw [hikey]
        simp [this]
    have hfiltered : (check_duplicates data cols).filter
        (fun v => keyAt data cols v.record_index == kv) =
        tl.map (fun i => ⟨i, String.intercalate ", " cols,
          .vstr (tupleRepr (keyAt data cols i)), .duplicateAt f⟩) := by
      rw [check_duplicates_eq data cols, dup_spec, dup_filter_key, hocc,
        List.filterMap_cons]
      simp only [hnone]
      exact filterMap_congr_some _ tl (dupItem data cols) hsome
    refine ⟨hfiltered, ?_⟩
    rw [hfiltered, hocc]
    simp

/-- Witness for C5 on a concrete batch where the key `("1",)` occurs at
indices 0, 2 and 3: exactly two violations (K − 1 = 2), both referencing
first occurrence 0; the first occurrence (and the singleton key at index
1) are never violations. -/
theorem C5_duplicate_semantics_witness :
    (check_duplicates [[("id", Value.vstr "1")], [("id", Value.vstr "2")],
        [("id", Value.vstr "1")], [("id", Value.vstr "1")]] ["id"]).filter
      (fun v => keyAt [[("id", Value.vstr "1")], [("id", Value.vstr "2")],
        [("id", Value.vstr "1")], [("id", Value.vstr "1")]] ["id"] v.record_index == ["1"]) =
      [⟨2, "id", Value.vstr "('1',)", Issue.duplicateAt 0⟩,
       ⟨3, "id", Value.vstr "('1',)", Issue.duplicateAt 0⟩] ∧
    (∀ v ∈ check_duplicates [[("id", Value.vstr "1")], [("id", Value.vstr "2")],
        [("id", Value.vstr "1")], [("id", Value.vstr "1")]] ["id"], v.record_index ≠ 1) := by
  have h := C5_duplicate_semantics [[("id", Value.vstr "1")], [("id", Value.vstr "2")],
    [("id", Value.vstr "1")], [("id", Value.vstr "1")]] ["id"]
  constructor
  · have h3 := (h.2.2 ["1"] 0 [2, 3] (by decide)).1
    rw [h3]
    decide
  · refine h.2.1 1 ?_
    intro j hj
    have hj0 : j = 0 := by omega
    subst hj0
    decide
